import Mathlib

/-!
# Verification of the datahub-browser Neighborhood Resolution & Navigation Engine

A shallow embedding, in Lean 4, of the core logic of the `datahub-browser`
repository, together with theorems settling the specification claims about it.

Modelling conventions:
* TypeScript strings are modeled as `List Char` (abbreviated `Str`); JavaScript
  string equality (`===`) is list equality.
* JSON values are the inductive `Json`; JavaScript `Set`s are insertion-ordered
  duplicate-free lists, `Map`s and plain objects are insertion-ordered
  association lists (`Map.set` overwrites in place, object assignment upserts).
* The network is an oracle `Network : Str → HttpResult` mapping a request URL to
  either a JSON body or an HTTP failure; `fetch` therefore never "hangs" in the
  model and exceptions become `Except DatahubApiError`.
* `encodeURIComponent` is modeled as an abstract function `encode : Str → Str`
  threaded through the client (its concrete output never matters to the claims).
* JavaScript floating point numbers in the layout are modeled as rationals, and
  `Math.PI` / `Math.cos` / `Math.sin` as explicit parameters of the layout
  function (the layout only ever feeds them well-defined rational angles).
* `Array.prototype.sort` with the `localeCompare` comparator is modeled as a
  stable insertion sort by lexicographic character order (locale collation is
  modeled as code-unit order; all sorted values are identifiers and labels).
-/

namespace DatahubBrowser

/-- TypeScript strings, modeled as lists of characters. -/
abbrev Str := List Char

/-- Coerce a Lean string literal to the `Str` model. -/
def strOf (s : String) : Str := s.toList

/-- Last index of an element in a list (TS `String.prototype.lastIndexOf` /
`Array.prototype.lastIndexOf`, with `none` standing for the TS result `-1`). -/
def lastIdxOf {α : Type} [DecidableEq α] : List α → α → Option Nat
  | [], _ => none
  | x :: xs, a =>
    match lastIdxOf xs a with
    | some j => some (j + 1)
    | none => if x = a then some 0 else none

/-- JS `Set.prototype.add`: append the element unless already present
(insertion order is preserved, first occurrence wins). -/
def setAdd {α : Type} [DecidableEq α] (acc : List α) (x : α) : List α :=
  if x ∈ acc then acc else acc ++ [x]

/-- `Array.from(new Set(l))`: deduplicate keeping the first occurrence. -/
def dedupKeepFirst {α : Type} [DecidableEq α] (l : List α) : List α :=
  l.foldl setAdd []

/-- JS object property read (`record[key]`); objects are insertion-ordered
association lists whose keys are unique by construction. -/
def recordGet {α : Type} : List (Str × α) → Str → Option α
  | [], _ => none
  | (k2, v) :: rest, k => if k2 = k then some v else recordGet rest k

/-- JS object property write (`record[key] = value`): overwrite in place if the
key exists, else append the new key (insertion order). `Map.prototype.set` has
the same semantics. -/
def recordSet {α : Type} : List (Str × α) → Str → α → List (Str × α)
  | [], k, v => [(k, v)]
  | (k2, v2) :: rest, k, v =>
    if k2 = k then (k2, v) :: rest else (k2, v2) :: recordSet rest k v

/-- `Array.prototype.join(sep)`. -/
def joinStr (sep : Str) : List Str → Str
  | [] => []
  | [x] => x
  | x :: xs => x ++ sep ++ joinStr sep xs

/-- TS `String.prototype.trim`. -/
def trimStr (s : Str) : Str :=
  ((s.dropWhile Char.isWhitespace).reverse.dropWhile Char.isWhitespace).reverse

/-- Lexicographic (code-unit) strict order on modeled strings. -/
def strLtB : Str → Str → Bool
  | [], [] => false
  | [], _ :: _ => true
  | _ :: _, [] => false
  | a :: as, b :: bs => if a < b then true else if b < a then false else strLtB as bs

/-- Lexicographic (code-unit) weak order on modeled strings; this is the model
of the `localeCompare` comparator used by all `.sort` calls in the source. -/
def strLeB (a b : Str) : Bool := strLtB a b || a = b

/-- One step of insertion sort. -/
def insertLe {α : Type} (le : α → α → Bool) (x : α) : List α → List α
  | [] => [x]
  | y :: ys => if le x y then x :: y :: ys else y :: insertLe le x ys

/-- Insertion sort; models `Array.prototype.sort` with a total comparator
(extensionally equal to any comparison sort for a total preorder). -/
def sortByLe {α : Type} (le : α → α → Bool) (l : List α) : List α :=
  l.foldr (insertLe le) []

/-- `urns.sort((a, b) => a.localeCompare(b))` in the model. -/
def sortStr (l : List Str) : List Str := sortByLe strLeB l

/-! ## JSON data model (`unknown` values traversed by the URN scanner) -/

/-- Arbitrary JSON-like runtime values (the `unknown` payloads of the source).
`arr`/`obj` children are in document/insertion order. -/
inductive Json where
  | str (s : Str)
  | num (n : Int)
  | bool (b : Bool)
  | null
  | arr (items : List Json)
  | obj (fields : List (Str × Json))

mutual
def Json.deq : (a b : Json) → Decidable (a = b)
  | .str s, .str t =>
    if h : s = t then .isTrue (by rw [h]) else .isFalse (fun hc => h (Json.str.inj hc))
  | .num m, .num n =>
    if h : m = n then .isTrue (by rw [h]) else .isFalse (fun hc => h (Json.num.inj hc))
  | .bool a, .bool b =>
    if h : a = b then .isTrue (by rw [h]) else .isFalse (fun hc => h (Json.bool.inj hc))
  | .null, .null => .isTrue rfl
  | .arr xs, .arr ys =>
    match JsonList.deq xs ys with
    | .isTrue h => .isTrue (by rw [h])
    | .isFalse h => .isFalse (fun hc => h (Json.arr.inj hc))
  | .obj xs, .obj ys =>
    match JsonFields.deq xs ys with
    | .isTrue h => .isTrue (by rw [h])
    | .isFalse h => .isFalse (fun hc => h (Json.obj.inj hc))
  | .str _, .num _ => .isFalse (fun hc => Json.noConfusion hc)
  | .str _, .bool _ => .isFalse (fun hc => Json.noConfusion hc)
  | .str _, .null => .isFalse (fun hc => Json.noConfusion hc)
  | .str _, .arr _ => .isFalse (fun hc => Json.noConfusion hc)
  | .str _, .obj _ => .isFalse (fun hc => Json.noConfusion hc)
  | .num _, .str _ => .isFalse (fun hc => Json.noConfusion hc)
  | .num _, .bool _ => .isFalse (fun hc => Json.noConfusion hc)
  | .num _, .null => .isFalse (fun hc => Json.noConfusion hc)
  | .num _, .arr _ => .isFalse (fun hc => Json.noConfusion hc)
  | .num _, .obj _ => .isFalse (fun hc => Json.noConfusion hc)
  | .bool _, .str _ => .isFalse (fun hc => Json.noConfusion hc)
  | .bool _, .num _ => .isFalse (fun hc => Json.noConfusion hc)
  | .bool _, .null => .isFalse (fun hc => Json.noConfusion hc)
  | .bool _, .arr _ => .isFalse (fun hc => Json.noConfusion hc)
  | .bool _, .obj _ => .isFalse (fun hc => Json.noConfusion hc)
  | .null, .str _ => .isFalse (fun hc => Json.noConfusion hc)
  | .null, .num _ => .isFalse (fun hc => Json.noConfusion hc)
  | .null, .bool _ => .isFalse (fun hc => Json.noConfusion hc)
  | .null, .arr _ => .isFalse (fun hc => Json.noConfusion hc)
  | .null, .obj _ => .isFalse (fun hc => Json.noConfusion hc)
  | .arr _, .str _ => .isFalse (fun hc => Json.noConfusion hc)
  | .arr _, .num _ => .isFalse (fun hc => Json.noConfusion hc)
  | .arr _, .bool _ => .isFalse (fun hc => Json.noConfusion hc)
  | .arr _, .null => .isFalse (fun hc => Json.noConfusion hc)
  | .arr _, .obj _ => .isFalse (fun hc => Json.noConfusion hc)
  | .obj _, .str _ => .isFalse (fun hc => Json.noConfusion hc)
  | .obj _, .num _ => .isFalse (fun hc => Json.noConfusion hc)
  | .obj _, .bool _ => .isFalse (fun hc => Json.noConfusion hc)
  | .obj _, .null => .isFalse (fun hc => Json.noConfusion hc)
  | .obj _, .arr _ => .isFalse (fun hc => Json.noConfusion hc)

def JsonList.deq : (a b : List Json) → Decidable (a = b)
  | [], [] => .isTrue rfl
  | [], _ :: _ => .isFalse (fun hc => List.noConfusion hc)
  | _ :: _, [] => .isFalse (fun hc => List.noConfusion hc)
  | x :: xs, y :: ys =>
    match Json.deq x y with
    | .isFalse h => .isFalse (fun hc => h (List.cons.inj hc).1)
    | .isTrue h1 =>
      match JsonList.deq xs ys with
      | .isTrue h2 => .isTrue (by rw [h1, h2])
      | .isFalse h2 => .isFalse (fun hc => h2 (List.cons.inj hc).2)

def JsonFields.deq : (a b : List (Str × Json)) → Decidable (a = b)
  | [], [] => .isTrue rfl
  | [], _ :: _ => .isFalse (fun hc => List.noConfusion hc)
  | _ :: _, [] => .isFalse (fun hc => List.noConfusion hc)
  | (k, v) :: xs, (k2, v2) :: ys =>
    if hk : k = k2 then
      match Json.deq v v2 with
      | .isFalse h => .isFalse (fun hc => h (congrArg Prod.snd (List.cons.inj hc).1))
      | .isTrue h1 =>
        match JsonFields.deq xs ys with
        | .isTrue h2 => .isTrue (by rw [hk, h1, h2])
        | .isFalse h2 => .isFalse (fun hc => h2 (List.cons.inj hc).2)
    else .isFalse (fun hc => hk (congrArg Prod.fst (List.cons.inj hc).1))
end

instance : DecidableEq Json := Json.deq

/-- JS property read `value[key]` on an arbitrary value: defined only on plain
objects, `undefined` (`none`) elsewhere. -/
def jsonLookup (j : Json) (key : Str) : Option Json :=
  match j with
  | .obj fields => recordGet fields key
  | _ => none

/-- `typeof value === 'object' && value !== null` (arrays included). -/
def isJsObject : Json → Bool
  | .obj _ => true
  | .arr _ => true
  | _ => false

/-- JS falsiness of a JSON value (`null`, `false`, `0`, `''`). -/
def jsonFalsy : Json → Bool
  | .null => true
  | .bool false => true
  | .num 0 => true
  | .str [] => true
  | _ => false

/-! ## src/lib/urn.ts -/

/-- `parseUrnType` (src/lib/urn.ts): first group of `^urn:li:([^:]+):`, with the
sentinel `entity` when the pattern does not match. Total by construction. -/
def parseUrnType (urn : Str) : Str :=
  if (strOf "urn:li:").isPrefixOf urn then
    if (urn.drop 7).takeWhile (fun c => c ≠ ':') ≠ [] ∧
        ((urn.drop 7).takeWhile (fun c => c ≠ ':')).length < (urn.drop 7).length then
      (urn.drop 7).takeWhile (fun c => c ≠ ':')
    else strOf "entity"
  else strOf "entity"

/-- Last `':'`-delimited segment (`urn.split(':')` last element; the source's
`?? urn` fallback is unreachable since `split` always yields at least one
element). -/
def lastColonSegment (l : Str) : Str :=
  match lastIdxOf l ':' with
  | some j => l.drop (j + 1)
  | none => l

/-- `parseUrnName` (src/lib/urn.ts): ignore everything from the first `#`; if
the remainder has a `'('` with a later `')'`, return the slice strictly between
the last `'('` and the last `')'`; otherwise the last colon segment. Total by
construction. -/
def parseUrnName (urn : Str) : Str :=
  let beforeHash := urn.takeWhile (fun c => c ≠ '#')
  match lastIdxOf beforeHash '(', lastIdxOf beforeHash ')' with
  | some lastParen, some lastClose =>
    if lastParen < lastClose then (beforeHash.take lastClose).drop (lastParen + 1)
    else lastColonSegment beforeHash
  | some _, none => lastColonSegment beforeHash
  | none, _ => lastColonSegment beforeHash

mutual
/-- `extractUrnsFromJson` (src/lib/urn.ts): recursively collect every string
value with the `urn:li:` prefix into an insertion-ordered set accumulator
(strings, array elements and object values; never object keys). -/
def extractUrns : Json → List Str → List Str
  | .str s, acc => if (strOf "urn:li:").isPrefixOf s then setAdd acc s else acc
  | .arr items, acc => extractUrnsArr items acc
  | .obj fields, acc => extractUrnsObj fields acc
  | _, acc => acc

def extractUrnsArr : List Json → List Str → List Str
  | [], acc => acc
  | j :: js, acc => extractUrnsArr js (extractUrns j acc)

def extractUrnsObj : List (Str × Json) → List Str → List Str
  | [], acc => acc
  | (_, j) :: fs, acc => extractUrnsObj fs (extractUrns j acc)
end

/-- `typeof record[key] === 'string' && record[key]`: the field value when it is
a non-empty (truthy) string. -/
def truthyStringField (j : Json) (key : Str) : Option Str :=
  match jsonLookup j key with
  | some (.str s) => if s.isEmpty then none else some s
  | _ => none

/-- `Map.get(label) ?? []` followed by `Map.set(label, urns)` when `urns` is
non-empty: the `addAspectGroup` closure of `extractAspectUrnGroups`. -/
def addAspectGroup (groups : List (Str × List Str)) (label : Str) (value : Json) :
    List (Str × List Str) :=
  let urns := extractUrns value []
  if urns.isEmpty then groups else recordSet groups label urns

/-- Label for a list-shaped aspect: truthy `label`, else truthy `name`, else
truthy `aspectName`, else the positional fallback `aspect_(index+1)`. -/
def aspectLabelArr (aspect : Json) (index : Nat) : Str :=
  match truthyStringField aspect (strOf "label") with
  | some s => s
  | none =>
    match truthyStringField aspect (strOf "name") with
    | some s => s
    | none =>
      match truthyStringField aspect (strOf "aspectName") with
      | some s => s
      | none => strOf "aspect_" ++ strOf (toString (index + 1))

/-- Label for a map-shaped aspect entry: truthy `label`, else truthy `name`,
else the (truthy) structural key, else `aspect_(index+1)`. Note the source does
NOT consult `aspectName` on this branch. -/
def aspectLabelMap (value : Json) (key : Str) (index : Nat) : Str :=
  match truthyStringField value (strOf "label") with
  | some s => s
  | none =>
    match truthyStringField value (strOf "name") with
    | some s => s
    | none => if key.isEmpty then strOf "aspect_" ++ strOf (toString (index + 1)) else key

/-- The list-shaped branch of `extractAspectUrnGroups` (`aspects.forEach`). -/
def extractAspectGroupsArr (aspects : List Json) : List (Str × List Str) :=
  aspects.enum.foldl
    (fun groups p =>
      if isJsObject p.2 then addAspectGroup groups (aspectLabelArr p.2 p.1) p.2 else groups)
    []

/-- The map-shaped branch of `extractAspectUrnGroups` (`Object.entries(aspects)`). -/
def extractAspectGroupsMap (entries : List (Str × Json)) : List (Str × List Str) :=
  entries.enum.foldl
    (fun groups p =>
      if isJsObject p.2.2 then addAspectGroup groups (aspectLabelMap p.2.2 p.2.1 p.1) p.2.2
      else groups)
    []

/-- `extractAspectUrnGroups` (src/lib/urn.ts): read an `aspects` field shaped as
a list or as a map, label each aspect and collect its embedded identifiers,
omitting aspects that contribute none. -/
def extractAspectUrnGroups (raw : Json) : List (Str × List Str) :=
  match raw with
  | .obj fields =>
    match recordGet fields (strOf "aspects") with
    | none => []
    | some aspects =>
      if jsonFalsy aspects then []
      else
        match aspects with
        | .arr items => extractAspectGroupsArr items
        | .obj entries => extractAspectGroupsMap entries
        | _ => []
  | _ => []

/-! ## src/lib/navigation.ts -/

/-- The three navigation intents. -/
inductive NavigationMode where
  | connect
  | node
  | breadcrumb
  deriving DecidableEq

/-- `getNextNavigationStack` (src/lib/navigation.ts). The breadcrumb index is
an optional JS number, modeled as `Option Int` (the source checks
`typeof breadcrumbIndex === 'number' && breadcrumbIndex >= 0 && ... < length`). -/
def getNextNavigationStack (currentStack : List Str) (nextUrn : Str)
    (mode : NavigationMode) (breadcrumbIndex : Option Int := none) : List Str :=
  match mode with
  | .connect => [nextUrn]
  | .breadcrumb =>
    match breadcrumbIndex with
    | some i =>
      if 0 ≤ i ∧ currentStack.get? i.toNat = some nextUrn then
        currentStack.take (i.toNat + 1)
      else
        match lastIdxOf currentStack nextUrn with
        | some j => currentStack.take (j + 1)
        | none => [nextUrn]
    | none =>
      match lastIdxOf currentStack nextUrn with
      | some j => currentStack.take (j + 1)
      | none => [nextUrn]
  | .node =>
    if currentStack.isEmpty then [nextUrn]
    else if currentStack.getLast? = some nextUrn then currentStack
    else
      match lastIdxOf currentStack nextUrn with
      | some j => currentStack.take (j + 1)
      | none => currentStack ++ [nextUrn]

example :
    getNextNavigationStack [strOf "a", strOf "b"] (strOf "root") .connect = [strOf "root"] := by
  decide

example :
    getNextNavigationStack [strOf "a"] (strOf "b") .node = [strOf "a", strOf "b"] := by
  decide

example :
    getNextNavigationStack [strOf "a", strOf "b", strOf "c"] (strOf "a") .breadcrumb (some 0) =
      [strOf "a"] := by
  decide

example :
    getNextNavigationStack [strOf "a", strOf "b"] (strOf "b") .node = [strOf "a", strOf "b"] := by
  decide

example :
    parseUrnType (strOf "urn:li:dataset:(urn:li:dataPlatform:hive,fct_users_created,PROD)") =
      strOf "dataset" := by
  decide

example :
    parseUrnName (strOf "urn:li:dataset:(urn:li:dataPlatform:hive,fct_users_created,PROD)") =
      strOf "urn:li:dataPlatform:hive,fct_users_created,PROD" := by
  decide

/-! ## src/lib/types.ts -/

/-- `DatahubObject` (src/lib/types.ts). -/
structure DatahubObject where
  id : Str
  type : Str
  name : Str
  raw : Json
  deriving DecidableEq

/-- `RelationshipEdge` (src/lib/types.ts). -/
structure RelationshipEdge where
  sourceId : Str
  targetId : Str
  type : Str
  deriving DecidableEq

/-- The node role in the radial layout. -/
inductive Role where
  | center
  | parent
  | dependency
  | both
  | previous
  deriving DecidableEq

/-- `PositionedNode` (src/lib/types.ts): coordinates are rationals (JS floats);
`object` is an `Option` because the source assigns `entitiesByUrn[urn]`, which
can be `undefined` at runtime despite the declared type. -/
structure PositionedNode where
  object : Option DatahubObject
  x : ℚ
  y : ℚ
  role : Role
  deriving DecidableEq

/-- `Neighborhood` (src/lib/types.ts). URN sets are insertion-ordered
duplicate-free lists, `aspectLabelsByUrn` an insertion-ordered record. -/
structure Neighborhood where
  centerUrn : Str
  previousUrn : Option Str
  parentUrns : List Str
  dependencyUrns : List Str
  aspectLabelsByUrn : List (Str × List Str)
  edges : List RelationshipEdge
  deriving DecidableEq

/-! ## src/lib/datahubClient.ts -/

/-- Relationship fetch direction. -/
inductive Direction where
  | INCOMING
  | OUTGOING
  deriving DecidableEq

/-- The direction as the query-parameter string. -/
def Direction.toStr : Direction → Str
  | .INCOMING => strOf "INCOMING"
  | .OUTGOING => strOf "OUTGOING"

/-- `DatahubApiError` (src/lib/datahubClient.ts): message plus optional status,
endpoint, attempted-endpoint list and failure detail. -/
structure DatahubApiError where
  message : Str
  status : Option Nat := none
  endpoint : Option Str := none
  attemptedEndpoints : Option (List Str) := none
  details : Option Str := none
  deriving DecidableEq

/-- Outcome of one HTTP request: a JSON body, or a non-2xx failure with status,
body text and status text. -/
inductive HttpResult where
  | ok (json : Json)
  | fail (status : Nat) (body : Str) (statusText : Str)

/-- The network oracle: response for each full request URL. -/
abbrev Network := Str → HttpResult

/-- One relationship item after normalization (`{ urn, type }`). -/
structure RelationshipItem where
  urn : Str
  type : Str
  deriving DecidableEq

/-- `fetchJson`: issue a request for `baseUrl ++ path`; non-2xx responses become
a `DatahubApiError` with the endpoint and the body (or status text) as detail. -/
def fetchJson (net : Network) (baseUrl path : Str) : Except DatahubApiError Json :=
  match net (baseUrl ++ path) with
  | .ok j => .ok j
  | .fail status body statusText =>
    .error
      { message := strOf "HTTP " ++ strOf (toString status) ++ strOf " for " ++ path
        status := some status
        endpoint := some path
        details := some (if body.isEmpty then statusText else body) }

/-- The fixed legacy relationship-type names, comma-joined
(`LEGACY_RELATIONSHIP_TYPES`). -/
def LEGACY_RELATIONSHIP_TYPES : Str :=
  joinStr (strOf ",")
    [strOf "DownstreamOf", strOf "UpstreamOf", strOf "Consumes", strOf "Produces",
     strOf "DependsOn", strOf "Contains", strOf "OwnedBy", strOf "ParentOf",
     strOf "IsPartOf", strOf "HasPart", strOf "SchemaFieldOf", strOf "InputFields",
     strOf "OutputFields"]

/-- The ordered entity-resolution endpoint variants for one URN. -/
def entityAttempts (encode : Str → Str) (urn : Str) : List Str :=
  [strOf "/openapi/entities/v1/latest?urns=" ++ encode urn ++ strOf "&withSystemMetadata=false",
   strOf "/openapi/entities/v1/latest?urns=" ++ encode urn,
   strOf "/entitiesV2/" ++ encode urn]

/-- The ordered relationship-resolution endpoint variants for one URN and
direction; the legacy variant carries the explicit `types` filter. -/
def relationshipAttempts (encode : Str → Str) (urn : Str) (direction : Direction) : List Str :=
  [strOf "/openapi/relationships/v1/?urn=" ++ encode urn ++ strOf "&direction=" ++
     direction.toStr ++ strOf "&start=0&count=100",
   strOf "/openapi/relationships/v1?urn=" ++ encode urn ++ strOf "&direction=" ++
     direction.toStr ++ strOf "&start=0&count=100",
   strOf "/relationships?urn=" ++ encode urn ++ strOf "&direction=" ++ direction.toStr ++
     strOf "&types=" ++ encode LEGACY_RELATIONSHIP_TYPES ++ strOf "&start=0&count=100"]

/-- `Object.values(value)[0]` for an object value (arrays included). -/
def firstObjectValue : Json → Option Json
  | .obj ((_, v) :: _) => some v
  | .arr (v :: _) => some v
  | _ => none

/-- `topLevel.value ?? topLevel`. -/
def valueOrSelf (topLevel : Json) : Json :=
  match jsonLookup topLevel (strOf "value") with
  | some v => if v = .null then topLevel else v
  | none => topLevel

/-- Response-shape handling of `fetchEntity`: unwrap `responses` (taking its
first value) when present and object-shaped, else `value`, else the top level;
the entity id comes from the payload's own `urn` string field when present,
else the requested URN. -/
def parseEntityResponse (json : Json) (urn : Str) : DatahubObject :=
  let topLevel := if json = .null then Json.obj [] else json
  let responseRecord :=
    match jsonLookup topLevel (strOf "responses") with
    | some responses =>
      if isJsObject responses then (firstObjectValue responses).getD (Json.obj [])
      else valueOrSelf topLevel
    | none => valueOrSelf topLevel
  let entityUrn :=
    match jsonLookup responseRecord (strOf "urn") with
    | some (.str s) => s
    | _ => urn
  { id := entityUrn
    type := parseUrnType entityUrn
    name := parseUrnName entityUrn
    raw := responseRecord }

/-- `extractRelatedUrn`: the first of `entity`, `urn`, `entityUrn`, `relatedUrn`
whose value is a string with the identifier prefix. -/
def extractRelatedUrn (item : Json) : Option Str :=
  goKeys [strOf "entity", strOf "urn", strOf "entityUrn", strOf "relatedUrn"]
where
  goKeys : List Str → Option Str
    | [] => none
    | k :: ks =>
      match jsonLookup item k with
      | some (.str s) => if (strOf "urn:li:").isPrefixOf s then some s else goKeys ks
      | _ => goKeys ks

/-- `extractRelationshipType`: first non-nullish of `relationshipType`, `type`,
`relationship`; the label `related_to` when that is not a string. -/
def extractRelationshipType (item : Json) : Str :=
  let rawType : Option Json :=
    [jsonLookup item (strOf "relationshipType"), jsonLookup item (strOf "type"),
     jsonLookup item (strOf "relationship")].findSome?
      (fun o =>
        match o with
        | some j => if j = .null then none else some j
        | none => none)
  match rawType with
  | some (.str s) => s
  | _ => strOf "related_to"

/-- `extractRelationshipItems`: the items of the first of `relationships`,
`entities`, `value`, `elements` whose value IS an array (empty or not); the
empty list when none is. -/
def extractRelationshipItems (response : Json) : List Json :=
  match jsonLookup response (strOf "relationships") with
  | some (.arr items) => items
  | _ =>
    match jsonLookup response (strOf "entities") with
    | some (.arr items) => items
    | _ =>
      match jsonLookup response (strOf "value") with
      | some (.arr items) => items
      | _ =>
        match jsonLookup response (strOf "elements") with
        | some (.arr items) => items
        | _ => []

/-- Per-response normalization of `fetchRelationships`: drop items without a
recognizable related identifier, label the rest. -/
def parseRelationships (j : Json) : List RelationshipItem :=
  (extractRelationshipItems j).filterMap
    (fun item =>
      match extractRelatedUrn item with
      | none => none
      | some u => some ⟨u, extractRelationshipType item⟩)

/-- The ordered-fallback loop shared by both client operations: try each
endpoint in order, remembering the last failure; parsing a 2xx body never
fails. -/
def attemptLoop {α : Type} (net : Network) (base : Str) (parse : Json → α) :
    List Str → Option DatahubApiError → Except (Option DatahubApiError) α
  | [], lastError => .error lastError
  | ep :: rest, _ =>
    match fetchJson net base ep with
    | .ok j => .ok (parse j)
    | .error e => attemptLoop net base parse rest (some e)

/-- The error thrown on exhaustion of all endpoint variants: fixed message,
status/endpoint/details copied from the last failure, and the full attempted
endpoint list. -/
def wrapFailure (msg : Str) (attempts : List Str) (lastError : Option DatahubApiError) :
    DatahubApiError :=
  match lastError with
  | some e =>
    { message := msg, status := e.status, endpoint := e.endpoint
      attemptedEndpoints := some attempts, details := e.details }
  | none => { message := msg, attemptedEndpoints := some attempts }

/-- `fetchEntity` (src/lib/datahubClient.ts). -/
def fetchEntity (net : Network) (encode : Str → Str) (base : Str) (urn : Str) :
    Except DatahubApiError DatahubObject :=
  match attemptLoop net base (fun j => parseEntityResponse j urn) (entityAttempts encode urn)
      none with
  | .ok obj => .ok obj
  | .error lastError =>
    .error (wrapFailure (strOf "Failed to fetch entity from GMS.") (entityAttempts encode urn)
      lastError)

/-- `fetchRelationships` (src/lib/datahubClient.ts). -/
def fetchRelationships (net : Network) (encode : Str → Str) (base : Str) (urn : Str)
    (direction : Direction) : Except DatahubApiError (List RelationshipItem) :=
  match attemptLoop net base parseRelationships (relationshipAttempts encode urn direction)
      none with
  | .ok items => .ok items
  | .error lastError =>
    .error (wrapFailure (strOf "Failed to fetch relationships from GMS.")
      (relationshipAttempts encode urn direction) lastError)

/-! ## App.tsx: the Neighborhood Builder (`loadNeighborhood`) -/

/-- The React state touched by `loadNeighborhood` (the transient `isLoading`
flag, set and then cleared within every call, is omitted). -/
structure AppState where
  entitiesByUrn : List (Str × DatahubObject)
  neighborhood : Option Neighborhood
  navStack : List Str
  centerId : Option Str
  urnInput : Str
  inputError : Str
  deriving DecidableEq

/-- The initial app state: empty cache, no neighborhood, empty stack. -/
def emptyAppState : AppState :=
  { entitiesByUrn := [], neighborhood := none, navStack := [], centerId := none,
    urnInput := [], inputError := [] }

/-- The catch-block message of `loadNeighborhood` for a `DatahubApiError`:
message, the comma-joined attempted endpoints (else the endpoint, else
`unknown endpoint`), and the `Details:` suffix when a non-empty detail exists. -/
def renderApiError (e : DatahubApiError) : Str :=
  let attempts :=
    match e.attemptedEndpoints with
    | some eps => joinStr (strOf ", ") eps
    | none =>
      match e.endpoint with
      | some ep => ep
      | none => strOf "unknown endpoint"
  let details :=
    match e.details with
    | some d => if d.isEmpty then [] else strOf " Details: " ++ d
    | none => []
  e.message ++ strOf " Attempted: " ++ attempts ++ strOf "." ++ details

/-- The placeholder entity synthesized for a neighbor whose resolution failed:
type and name parsed from the identifier, payload marked unavailable. -/
def placeholderEntity (neighborUrn : Str) : DatahubObject :=
  { id := neighborUrn
    type := parseUrnType neighborUrn
    name := parseUrnName neighborUrn
    raw := Json.obj [(strOf "urn", .str neighborUrn), (strOf "unavailable", .bool true)] }

/-- Per-neighbor resolution with local recovery (`try fetchEntity catch
placeholder`). -/
def resolveNeighbor (net : Network) (encode : Str → Str) (base : Str) (neighborUrn : Str) :
    DatahubObject :=
  match fetchEntity net encode base neighborUrn with
  | .ok e => e
  | .error _ => placeholderEntity neighborUrn

/-- The `aspectLabelsByUrn` record: for each aspect group in order, attach the
group label to each of its URNs (skipping the center, avoiding duplicate
labels per URN). -/
def aspectLabelsByUrnOf (centerId : Str) (groups : List (Str × List Str)) :
    List (Str × List Str) :=
  groups.foldl
    (fun acc g =>
      g.2.foldl
        (fun acc2 aspectUrn =>
          if aspectUrn = centerId then acc2
          else
            let existing := (recordGet acc2 aspectUrn).getD []
            if g.1 ∈ existing then acc2 else recordSet acc2 aspectUrn (existing ++ [g.1]))
        acc)
    []

/-- Edges for incoming relationships: neighbor → center, labeled by the
relationship type. -/
def incomingEdgesOf (centerId : Str) (incoming : List RelationshipItem) :
    List RelationshipEdge :=
  incoming.map (fun item => ⟨item.urn, centerId, item.type⟩)

/-- Edges for outgoing relationships: center → neighbor. -/
def outgoingEdgesOf (centerId : Str) (outgoing : List RelationshipItem) :
    List RelationshipEdge :=
  outgoing.map (fun item => ⟨centerId, item.urn, item.type⟩)

/-- Edges for in-payload references: center → reference, labeled
`aspect:<labels>` when the reference has aspect labels, else `json_reference`. -/
def jsonDependencyEdgesOf (centerId : Str) (aspectLabelsByUrn : List (Str × List Str))
    (jsonDependencyUrns : List Str) : List RelationshipEdge :=
  jsonDependencyUrns.map
    (fun dependencyUrn =>
      let labelPart :=
        match recordGet aspectLabelsByUrn dependencyUrn with
        | some ls =>
          if ls.isEmpty then strOf "json_reference"
          else strOf "aspect:" ++ joinStr (strOf "|") ls
        | none => strOf "json_reference"
      ⟨centerId, dependencyUrn, labelPart⟩)

/-- The `Map` key used for edge deduplication: source, target and label joined
by a bar character. -/
def edgeKey (e : RelationshipEdge) : Str :=
  e.sourceId ++ strOf "|" ++ e.targetId ++ strOf "|" ++ e.type

/-- The edge deduplication `Map`: keep an edge only when its key is new;
insertion order is preserved, so the first occurrence of each key wins. -/
def dedupeEdges : List RelationshipEdge → List Str → List RelationshipEdge
  | [], _ => []
  | e :: es, seen =>
    if edgeKey e ∈ seen then dedupeEdges es seen
    else e :: dedupeEdges es (edgeKey e :: seen)

/-- The synthetic `previous_selection` edge: present only when a previous
identifier exists, differs from the center, and no discovered edge already
connects the two in either direction. -/
def previousEdgeOf (centerId : Str) (previousUrn : Option Str)
    (relationshipEdges : List RelationshipEdge) : List RelationshipEdge :=
  match previousUrn with
  | some p =>
    if ¬p.isEmpty ∧ p ≠ centerId then
      if relationshipEdges.any
          (fun e => (e.sourceId = p ∧ e.targetId = centerId) ∨
            (e.sourceId = centerId ∧ e.targetId = p)) then
        []
      else [⟨p, centerId, strOf "previous_selection"⟩]
    else []
  | none => []

/-- `nextNavStack[nextNavStack.length - 2]` when the stack has more than one
element, else `null`. -/
def secondToLast (l : List Str) : Option Str :=
  if l.length > 1 then l.get? (l.length - 2) else none

/-- The in-payload reference URNs of the center entity, excluding
self-references (`jsonDependencyUrns`). -/
def jsonDependencyUrnsOf (centerEntity : DatahubObject) : List Str :=
  (extractUrns centerEntity.raw []).filter
    (fun candidateUrn => candidateUrn ≠ centerEntity.id)

/-- The `aspectLabelsByUrn` record of the center entity. -/
def centerAspectLabels (centerEntity : DatahubObject) : List (Str × List Str) :=
  aspectLabelsByUrnOf centerEntity.id (extractAspectUrnGroups centerEntity.raw)

/-- The advanced navigation stack of one action. -/
def nextNavStackOf (st : AppState) (centerEntity : DatahubObject) (mode : NavigationMode)
    (breadcrumbIndex : Option Int) : List Str :=
  getNextNavigationStack st.navStack centerEntity.id mode breadcrumbIndex

/-- The derived `previousUrn`: second-to-last element of the advanced stack. -/
def previousUrnOf (st : AppState) (centerEntity : DatahubObject) (mode : NavigationMode)
    (breadcrumbIndex : Option Int) : Option Str :=
  secondToLast (nextNavStackOf st centerEntity mode breadcrumbIndex)

/-- `parentUrns = new Set(incoming.map(item => item.urn))`. -/
def parentUrnsOf (incoming : List RelationshipItem) : List Str :=
  dedupKeepFirst (incoming.map (fun item => item.urn))

/-- `dependencyUrns = new Set([...outgoing urns, ...jsonDependencyUrns])`. -/
def dependencyUrnsOf (centerEntity : DatahubObject) (outgoing : List RelationshipItem) :
    List Str :=
  dedupKeepFirst (outgoing.map (fun item => item.urn) ++ jsonDependencyUrnsOf centerEntity)

/-- The neighbor identifiers resolved by one action: parents, dependencies, and
the previous identifier when truthy and distinct from the center. -/
def neighborUrnsOf (st : AppState) (centerEntity : DatahubObject)
    (incoming outgoing : List RelationshipItem) (mode : NavigationMode)
    (breadcrumbIndex : Option Int) : List Str :=
  dedupKeepFirst (parentUrnsOf incoming ++ dependencyUrnsOf centerEntity outgoing ++
    (match previousUrnOf st centerEntity mode breadcrumbIndex with
     | some p => if ¬p.isEmpty ∧ p ≠ centerEntity.id then [p] else []
     | none => []))

/-- The discovered relationship edges, in discovery order: incoming, outgoing,
in-payload references. -/
def relationshipEdgesOf (centerEntity : DatahubObject)
    (incoming outgoing : List RelationshipItem) : List RelationshipEdge :=
  incomingEdgesOf centerEntity.id incoming ++ outgoingEdgesOf centerEntity.id outgoing ++
    jsonDependencyEdgesOf centerEntity.id (centerAspectLabels centerEntity)
      (jsonDependencyUrnsOf centerEntity)

/-- All discovered edges in discovery order: incoming, outgoing, in-payload
references, then the synthetic previous edge. -/
def discoveredEdges (st : AppState) (centerEntity : DatahubObject)
    (incoming outgoing : List RelationshipItem) (mode : NavigationMode)
    (breadcrumbIndex : Option Int) : List RelationshipEdge :=
  relationshipEdgesOf centerEntity incoming outgoing ++
    previousEdgeOf centerEntity.id (previousUrnOf st centerEntity mode breadcrumbIndex)
      (relationshipEdgesOf centerEntity incoming outgoing)

/-- The resolved neighbor entities (placeholders where resolution failed). -/
def neighborEntitiesOf (net : Network) (encode : Str → Str) (base : Str)
    (neighborUrns : List Str) : List DatahubObject :=
  neighborUrns.map (resolveNeighbor net encode base)

/-- The cache merge: center entity first, then every neighbor entity, keyed by
each entity's own id (existing entries overwritten). -/
def mergedEntities (cache : List (Str × DatahubObject)) (centerEntity : DatahubObject)
    (neighborEntities : List DatahubObject) : List (Str × DatahubObject) :=
  neighborEntities.foldl (fun acc entity => recordSet acc entity.id entity)
    (recordSet cache centerEntity.id centerEntity)

/-- The success path of `loadNeighborhood`, entered once the center entity and
both relationship directions are resolved: extract references, advance the
stack, resolve neighbors (with placeholder recovery), build and deduplicate
edges, then commit cache, neighborhood, stack and center together. -/
def buildNeighborhoodState (net : Network) (encode : Str → Str) (base : Str) (st : AppState)
    (centerEntity : DatahubObject) (incoming outgoing : List RelationshipItem)
    (mode : NavigationMode) (breadcrumbIndex : Option Int) : AppState :=
  { entitiesByUrn := mergedEntities st.entitiesByUrn centerEntity
      (neighborEntitiesOf net encode base
        (neighborUrnsOf st centerEntity incoming outgoing mode breadcrumbIndex))
    neighborhood := some
      { centerUrn := centerEntity.id
        previousUrn := previousUrnOf st centerEntity mode breadcrumbIndex
        parentUrns := parentUrnsOf incoming
        dependencyUrns := dependencyUrnsOf centerEntity outgoing
        aspectLabelsByUrn := centerAspectLabels centerEntity
        edges := dedupeEdges (discoveredEdges st centerEntity incoming outgoing mode
          breadcrumbIndex) [] }
    navStack := nextNavStackOf st centerEntity mode breadcrumbIndex
    centerId := some centerEntity.id
    urnInput := centerEntity.id
    inputError := [] }

/-- `loadNeighborhood` (App.tsx) as a pure state transformer over the network
oracle: empty input and resolution failures only set the error message; the
success path commits the rebuilt neighborhood. -/
def loadNeighborhood (net : Network) (encode : Str → Str) (base : Str) (st : AppState)
    (urn : Str) (mode : NavigationMode) (breadcrumbIndex : Option Int) : AppState :=
  let trimmedUrn := trimStr urn
  if trimmedUrn.isEmpty then { st with inputError := strOf "Enter a URN to connect." }
  else
    match fetchEntity net encode base trimmedUrn with
    | .error e => { st with inputError := renderApiError e }
    | .ok centerEntity =>
      match fetchRelationships net encode base centerEntity.id .INCOMING with
      | .error e => { st with inputError := renderApiError e }
      | .ok incoming =>
        match fetchRelationships net encode base centerEntity.id .OUTGOING with
        | .error e => { st with inputError := renderApiError e }
        | .ok outgoing =>
          buildNeighborhoodState net encode base st centerEntity incoming outgoing mode
            breadcrumbIndex

/-! ## App.tsx: the Radial Layout Engine (the `graph` memo) -/

/-- `aspectLabelsByUrn[urn]?.[0] ?? 'Uncategorized'`: the first aspect label of
a dependency, used as its group label. -/
def dependencyLabel (aspectLabelsByUrn : List (Str × List Str)) (urn : Str) : Str :=
  match recordGet aspectLabelsByUrn urn with
  | some (l :: _) => l
  | some [] => strOf "Uncategorized"
  | none => strOf "Uncategorized"

/-- The dependency URNs that survive the layout filters: resolvable in the
entity cache and distinct from the previous identifier. -/
def layoutDependencyUrns (cache : List (Str × DatahubObject)) (nb : Neighborhood) : List Str :=
  (nb.dependencyUrns.filter (fun urn => (recordGet cache urn).isSome)).filter
    (fun urn => ¬nb.previousUrn = some urn)

/-- Append a URN to its label's group (`dependencyGroups.get(label) ?? []` then
`set`). -/
def groupAppend (groups : List (Str × List Str)) (label : Str) (urn : Str) :
    List (Str × List Str) :=
  recordSet groups label ((recordGet groups label).getD [] ++ [urn])

/-- The `dependencyGroups` map: filtered dependencies bucketed by their first
aspect label, in insertion order. -/
def dependencyGroupsOf (cache : List (Str × DatahubObject)) (nb : Neighborhood) :
    List (Str × List Str) :=
  (layoutDependencyUrns cache nb).foldl
    (fun groups urn => groupAppend groups (dependencyLabel nb.aspectLabelsByUrn urn) urn)
    []

/-- `groupedDependencies`: group labels sorted, each group's members sorted. -/
def groupedDependenciesOf (cache : List (Str × DatahubObject)) (nb : Neighborhood) :
    List (Str × List Str) :=
  (sortStr ((dependencyGroupsOf cache nb).map Prod.fst)).map
    (fun label => (label, sortStr ((recordGet (dependencyGroupsOf cache nb) label).getD [])))

/-- `aspectOrderedDependencies`: the sorted groups flattened. -/
def aspectOrderedDependenciesOf (cache : List (Str × DatahubObject)) (nb : Neighborhood) :
    List Str :=
  (groupedDependenciesOf cache nb).flatMap Prod.snd

/-- The parent URNs that survive the layout filters, sorted. -/
def layoutParentUrns (cache : List (Str × DatahubObject)) (nb : Neighborhood) : List Str :=
  sortStr ((nb.parentUrns.filter (fun urn => (recordGet cache urn).isSome)).filter
    (fun urn => ¬nb.previousUrn = some urn))

/-- `orderedNeighborUrns`: previous first (when truthy and distinct from the
center — note: with no entity-cache filter), then filtered parents, then the
flattened dependency groups. -/
def orderedNeighborUrnsOf (centerId : Str) (cache : List (Str × DatahubObject))
    (nb : Neighborhood) : List Str :=
  (match nb.previousUrn with
   | some p => if ¬p.isEmpty ∧ p ≠ centerId then [p] else []
   | none => []) ++
  layoutParentUrns cache nb ++ aspectOrderedDependenciesOf cache nb

/-- `neighborUrns = Array.from(new Set(orderedNeighborUrns))`. -/
def graphNeighborUrns (centerId : Str) (cache : List (Str × DatahubObject))
    (nb : Neighborhood) : List Str :=
  dedupKeepFirst (orderedNeighborUrnsOf centerId cache nb)

/-- The role conditional of the layout: previous check first, then
both/parent/dependency by raw set membership. -/
def roleFor (nb : Neighborhood) (urn : Str) : Role :=
  if nb.previousUrn = some urn then .previous
  else if urn ∈ nb.parentUrns ∧ urn ∈ nb.dependencyUrns then .both
  else if urn ∈ nb.parentUrns then .parent
  else .dependency

/-- The layout output (the `lanes` of the source memo are presentation-only
annotations not referenced by any claim and are not modeled). -/
structure GraphResult where
  nodes : List PositionedNode
  edges : List RelationshipEdge
  deriving DecidableEq

/-- The empty graph returned by the memo's guard clauses. -/
def emptyGraph : GraphResult := { nodes := [], edges := [] }

/-- One positioned neighbor node: entity-cache lookup (possibly `undefined`),
circle placement, role. -/
def neighborNode (piV : ℚ) (cosF sinF : ℚ → ℚ) (svgWidth svgHeight : ℚ)
    (cache : List (Str × DatahubObject)) (nb : Neighborhood) (n : Nat) (index : Nat)
    (urn : Str) : PositionedNode :=
  let angle : ℚ := piV * 2 * index / (max n 1 : ℚ) - piV / 2
  let radius : ℚ := min svgWidth svgHeight * (34 / 100)
  { object := recordGet cache urn
    x := svgWidth / 2 + radius * cosF angle
    y := svgHeight / 2 + radius * sinF angle
    role := roleFor nb urn }

/-- The `graph` memo of App.tsx (Radial Layout Engine): guard clauses, neighbor
ordering, and circle placement. `Math.PI`, `Math.cos` and `Math.sin` are
explicit parameters; coordinates are rationals. -/
def computeGraph (piV : ℚ) (cosF sinF : ℚ → ℚ) (svgWidth svgHeight : ℚ)
    (centerId : Option Str) (cache : List (Str × DatahubObject))
    (neighborhood : Option Neighborhood) : GraphResult :=
  match neighborhood, centerId with
  | some nb, some cid =>
    if cid.isEmpty then emptyGraph
    else
      match recordGet cache cid with
      | none => emptyGraph
      | some centerObject =>
        let neighborUrns := graphNeighborUrns cid cache nb
        { nodes :=
            { object := some centerObject, x := svgWidth / 2, y := svgHeight / 2
              role := Role.center } ::
            neighborUrns.enum.map
              (fun p =>
                neighborNode piV cosF sinF svgWidth svgHeight cache nb neighborUrns.length
                  p.1 p.2)
          edges := nb.edges }
  | _, _ => emptyGraph

/-! ## Library lemmas about the modeled JS primitives -/

theorem lastIdxOf_eq_none_iff {α : Type} [DecidableEq α] (l : List α) (a : α) :
    lastIdxOf l a = none ↔ a ∉ l := by
  induction l with
  | nil => simp [lastIdxOf]
  | cons x xs ih =>
    simp only [lastIdxOf]
    cases h : lastIdxOf xs a with
    | some j =>
      simp only [List.mem_cons]
      constructor
      · intro hc; exact absurd hc (by simp)
      · intro hc
        have : a ∈ xs := by
          by_contra hmem
          rw [← ih] at hmem
          rw [hmem] at h
          exact Option.noConfusion h
        exact absurd (Or.inr this) hc
    | none =>
      by_cases hx : x = a
      · simp [hx]
      · simp [hx, ih.mp h, Ne.symm hx]

theorem lastIdxOf_get? {α : Type} [DecidableEq α] {l : List α} {a : α} {j : Nat}
    (h : lastIdxOf l a = some j) : l.get? j = some a := by
  induction l generalizing j with
  | nil => simp [lastIdxOf] at h
  | cons x xs ih =>
    simp only [lastIdxOf] at h
    cases hx : lastIdxOf xs a with
    | some j2 =>
      rw [hx] at h
      have hj : j = j2 + 1 := by
        cases h; rfl
      subst hj
      simpa using ih hx
    | none =>
      rw [hx] at h
      by_cases hxa : x = a
      · simp [hxa] at h
        subst h
        simp [hxa]
      · simp [hxa] at h

theorem lastIdxOf_is_last {α : Type} [DecidableEq α] {l : List α} {a : α} {j : Nat}
    (h : lastIdxOf l a = some j) : ∀ k, j < k → l.get? k ≠ some a := by
  induction l generalizing j with
  | nil => simp [lastIdxOf] at h
  | cons x xs ih =>
    simp only [lastIdxOf] at h
    intro k hk
    cases hx : lastIdxOf xs a with
    | some j2 =>
      rw [hx] at h
      have hj : j = j2 + 1 := by cases h; rfl
      subst hj
      match k, hk with
      | k2 + 1, hk =>
        simpa using ih hx k2 (Nat.lt_of_succ_lt_succ hk)
    | none =>
      rw [hx] at h
      by_cases hxa : x = a
      · simp [hxa] at h
        subst h
        match k, hk with
        | k2 + 1, _ =>
          simp only [List.get?_cons_succ]
          intro hc
          exact (lastIdxOf_eq_none_iff xs a).mp hx (List.get?_mem hc)
      · simp [hxa] at h

theorem lastIdxOf_lt_length {α : Type} [DecidableEq α] {l : List α} {a : α} {j : Nat}
    (h : lastIdxOf l a = some j) : j < l.length := by
  have := lastIdxOf_get? h
  exact (List.get?_eq_some.mp this).1

theorem getLast?_take_succ {α : Type} {l : List α} {a : α} {j : Nat}
    (h : l.get? j = some a) : (l.take (j + 1)).getLast? = some a := by
  have hj : j < l.length := (List.get?_eq_some.mp h).1
  have hlen : (l.take (j + 1)).length = j + 1 := by
    simp [List.length_take]
    omega
  rw [List.getLast?_eq_getElem?, hlen]
  simp only [Nat.add_sub_cancel]
  rw [← List.get?_eq_getElem?]
  rw [List.get?_take (Nat.lt_succ_self j)]
  exact h

theorem take_succ_ne_nil {α : Type} {l : List α} {j : Nat} (h : j < l.length) :
    l.take (j + 1) ≠ [] := by
  intro hc
  rw [List.take_eq_nil_iff] at hc
  rcases hc with hc | hc
  · exact Nat.succ_ne_zero j hc
  · rw [hc] at h
    simp at h

/-! ## Claim C7: the navigation stack is never empty and ends in the target -/

/-- C7: for every stack `s`, non-empty target `t`, mode `m` and optional
breadcrumb index, `getNextNavigationStack s t m bi` is a non-empty stack whose
final element is exactly `t`. -/
theorem getNextNavigationStack_nonempty_last (s : List Str) (t : Str) (m : NavigationMode)
    (bi : Option Int) (ht : t ≠ []) :
    getNextNavigationStack s t m bi ≠ [] ∧
      (getNextNavigationStack s t m bi).getLast? = some t := by
  clear ht
  cases m with
  | connect => simp [getNextNavigationStack]
  | breadcrumb =>
    cases bi with
    | none =>
      simp only [getNextNavigationStack]
      cases hj : lastIdxOf s t with
      | some j =>
        exact ⟨take_succ_ne_nil (lastIdxOf_lt_length hj),
          getLast?_take_succ (lastIdxOf_get? hj)⟩
      | none => simp
    | some i =>
      simp only [getNextNavigationStack]
      by_cases hcond : 0 ≤ i ∧ s.get? i.toNat = some t
      · rw [if_pos hcond]
        exact ⟨take_succ_ne_nil (List.get?_eq_some.mp hcond.2).1,
          getLast?_take_succ hcond.2⟩
      · rw [if_neg hcond]
        cases hj : lastIdxOf s t with
        | some j =>
          exact ⟨take_succ_ne_nil (lastIdxOf_lt_length hj),
            getLast?_take_succ (lastIdxOf_get? hj)⟩
        | none => simp
  | node =>
    simp only [getNextNavigationStack]
    by_cases hemp : s.isEmpty
    · simp [hemp]
    · rw [if_neg hemp]
      by_cases htop : s.getLast? = some t
      · rw [if_pos htop]
        refine ⟨?_, htop⟩
        intro hc
        rw [hc] at hemp
        simp at hemp
      · rw [if_neg htop]
        cases hj : lastIdxOf s t with
        | some j =>
          exact ⟨take_succ_ne_nil (lastIdxOf_lt_length hj),
            getLast?_take_succ (lastIdxOf_get? hj)⟩
        | none =>
          constructor
          · simp
          · simp [List.getLast?_concat]

/-- Witness for C7 at a concrete input. -/
theorem getNextNavigationStack_nonempty_last_witness :
    getNextNavigationStack [strOf "a", strOf "b"] (strOf "c") .node none ≠ [] ∧
      (getNextNavigationStack [strOf "a", strOf "b"] (strOf "c") .node none).getLast? =
        some (strOf "c") :=
  getNextNavigationStack_nonempty_last [strOf "a", strOf "b"] (strOf "c") .node none
    (by decide)

/-! ## Claim C2: breadcrumb semantics -/

/-- C2, counterexample to the claim as stated: with stack `["a"]`, target `"b"`
and breadcrumb index `0`, the fallback does NOT append the target as `node`
mode would (`["a", "b"]`); the source resets the stack to `["b"]`. -/
theorem getNextNavigationStack_breadcrumb_cex :
    getNextNavigationStack [strOf "a"] (strOf "b") .breadcrumb (some 0) = [strOf "b"] ∧
      getNextNavigationStack [strOf "a"] (strOf "b") .breadcrumb (some 0) ≠
        [strOf "a", strOf "b"] := by
  decide

/-- C2 (amended): for every stack `s`, target `t` and index `i`:
`getNextNavigationStack s t breadcrumb (some i)` returns `s` truncated to index
`i` inclusive when `i` is a valid index of `s` with `s[i] = t`; otherwise it
truncates to and including the last occurrence of `t` when `t` occurs in `s`,
and RESETS the stack to `[t]` (rather than appending) when `t` does not occur. -/
theorem getNextNavigationStack_breadcrumb_spec (s : List Str) (t : Str) (i : Int) :
    (0 ≤ i ∧ s.get? i.toNat = some t →
      getNextNavigationStack s t .breadcrumb (some i) = s.take (i.toNat + 1)) ∧
    (¬(0 ≤ i ∧ s.get? i.toNat = some t) → t ∈ s →
      ∃ j, s.get? j = some t ∧ (∀ k, j < k → s.get? k ≠ some t) ∧
        getNextNavigationStack s t .breadcrumb (some i) = s.take (j + 1)) ∧
    (¬(0 ≤ i ∧ s.get? i.toNat = some t) → t ∉ s →
      getNextNavigationStack s t .breadcrumb (some i) = [t]) := by
  refine ⟨fun hcond => ?_, fun hcond hmem => ?_, fun hcond hmem => ?_⟩
  · simp only [getNextNavigationStack]
    rw [if_pos hcond]
  · cases hj : lastIdxOf s t with
    | some j =>
      refine ⟨j, lastIdxOf_get? hj, lastIdxOf_is_last hj, ?_⟩
      simp only [getNextNavigationStack]
      rw [if_neg hcond, hj]
    | none => exact absurd hmem ((lastIdxOf_eq_none_iff s t).mp hj)
  · simp only [getNextNavigationStack]
    rw [if_neg hcond]
    rw [(lastIdxOf_eq_none_iff s t).mpr hmem]

/-- Witness for C2 (amended) at concrete inputs covering all three branches. -/
theorem getNextNavigationStack_breadcrumb_spec_witness :
    (0 ≤ (1 : Int) ∧ [strOf "a", strOf "b", strOf "c"].get? (1 : Int).toNat =
        some (strOf "b")) ∧
      getNextNavigationStack [strOf "a", strOf "b", strOf "c"] (strOf "b") .breadcrumb
        (some 1) = [strOf "a", strOf "b"] := by
  refine ⟨⟨by decide, by decide⟩, ?_⟩
  have h := (getNextNavigationStack_breadcrumb_spec [strOf "a", strOf "b", strOf "c"]
    (strOf "b") 1).1 ⟨by decide, by decide⟩
  rw [h]
  decide

/-! ## Claim C3: totality and idempotence of the URN parsers -/

theorem parseUrnType_of_no_colon (v : Str) (h : ':' ∉ v) : parseUrnType v = strOf "entity" := by
  unfold parseUrnType
  rw [if_neg]
  intro hp
  have hpre : strOf "urn:li:" <+: v := List.isPrefixOf_iff_prefix.mp hp
  exact h (hpre.subset (by decide))

theorem parseUrnType_result (u : Str) :
    parseUrnType u = strOf "entity" ∨ ':' ∉ parseUrnType u := by
  unfold parseUrnType
  by_cases hp : (strOf "urn:li:").isPrefixOf u
  · rw [if_pos hp]
    by_cases hc : (u.drop 7).takeWhile (fun c => c ≠ ':') ≠ [] ∧
        ((u.drop 7).takeWhile (fun c => c ≠ ':')).length < (u.drop 7).length
    · rw [if_pos hc]
      right
      intro hmem
      have := List.mem_takeWhile_imp hmem
      simp at this
    · rw [if_neg hc]
      left
      rfl
  · rw [if_neg hp]
    left
    rfl

theorem parseUrnName_fixed (v : Str) (h1 : '#' ∉ v) (h2 : '(' ∉ v) (h3 : ':' ∉ v) :
    parseUrnName v = v := by
  have hbh : v.takeWhile (fun c => c ≠ '#') = v := by
    rw [List.takeWhile_eq_self_iff]
    intro x hx
    simp only [ne_eq, decide_eq_true_eq]
    intro hcc
    exact h1 (hcc ▸ hx)
  simp only [parseUrnName, hbh]
  rw [(lastIdxOf_eq_none_iff v '(').mpr h2]
  simp only [lastColonSegment]
  rw [(lastIdxOf_eq_none_iff v ':').mpr h3]

/-- C3, counterexample to the claim as stated: at the composite dataset URN,
neither parser is idempotent — a second `parseUrnType` yields the sentinel
`entity` instead of `dataset`, and a second `parseUrnName` cuts the composite
key down to its last colon segment. -/
theorem parse_idempotence_cex :
    parseUrnType (parseUrnType
        (strOf "urn:li:dataset:(urn:li:dataPlatform:hive,fct_users,PROD)")) ≠
      parseUrnType (strOf "urn:li:dataset:(urn:li:dataPlatform:hive,fct_users,PROD)") ∧
    parseUrnName (parseUrnName
        (strOf "urn:li:dataset:(urn:li:dataPlatform:hive,fct_users,PROD)")) ≠
      parseUrnName (strOf "urn:li:dataset:(urn:li:dataPlatform:hive,fct_users,PROD)") := by
  decide

/-- C3 (amended): both parsers are total functions by construction (every
branch of their definitions is a total list operation, and the source's
`?? urn` fallback is unreachable); idempotence however fails in general and is
replaced by stabilization: a second application of `parseUrnType` always
returns the sentinel `entity` (so `parseUrnType` is idempotent exactly on
inputs parsed to the sentinel), and `parseUrnName` is idempotent at every input
whose parsed name is free of `'#'`, `'('` and `':'` (parenthesized composite
keys violate it). -/
theorem parse_stabilization (u : Str) :
    parseUrnType (parseUrnType u) = strOf "entity" ∧
    ('#' ∉ parseUrnName u ∧ '(' ∉ parseUrnName u ∧ ':' ∉ parseUrnName u →
      parseUrnName (parseUrnName u) = parseUrnName u) := by
  constructor
  · rcases parseUrnType_result u with h | h
    · rw [h]
      decide
    · exact parseUrnType_of_no_colon _ h
  · intro ⟨h1, h2, h3⟩
    exact parseUrnName_fixed _ h1 h2 h3

/-- Witness for C3 (amended) at a concrete input. -/
theorem parse_stabilization_witness :
    ('#' ∉ parseUrnName (strOf "urn:li:corpuser:jdoe") ∧
      '(' ∉ parseUrnName (strOf "urn:li:corpuser:jdoe") ∧
      ':' ∉ parseUrnName (strOf "urn:li:corpuser:jdoe")) ∧
    parseUrnName (parseUrnName (strOf "urn:li:corpuser:jdoe")) =
      parseUrnName (strOf "urn:li:corpuser:jdoe") :=
  ⟨by decide, (parse_stabilization (strOf "urn:li:corpuser:jdoe")).2 (by decide)⟩

/-! ## Claim C4: response-wrapper selection -/

/-- The wrapper field as a list: `some items` exactly when the field holds an
array (of any length). -/
def wrapperListField (response : Json) (key : Str) : Option (List Json) :=
  match jsonLookup response key with
  | some (.arr items) => some items
  | _ => none

/-- C4 as stated by the spec (reference definition, from the claim's words):
the items of the first POPULATED (non-empty) list field among `relationships`,
`entities`, `value`, `elements`, and the empty list when no wrapper field holds
a populated list. -/
def firstPopulatedWrapperItems (response : Json) : List Json :=
  (([strOf "relationships", strOf "entities", strOf "value", strOf "elements"].findSome?
    (fun k =>
      match wrapperListField response k with
      | some items => if items.isEmpty then none else some items
      | none => none)).getD [])

/-- C4 as amended (reference definition): the items of the first field that IS
a list — empty or not — among the same wrapper names, and the empty list when
no wrapper field is a list. -/
def firstListWrapperItems (response : Json) : List Json :=
  ((wrapperListField response (strOf "relationships")).or
    ((wrapperListField response (strOf "entities")).or
      ((wrapperListField response (strOf "value")).or
        (wrapperListField response (strOf "elements"))))).getD []

theorem matchArrStep (o : Option Json) (rest : List Json) (orest : Option (List Json))
    (h : rest = orest.getD []) :
    (match o with
     | some (.arr items) => items
     | _ => rest) =
    ((match o with
      | some (.arr items) => some items
      | _ => none).or orest).getD [] := by
  cases o with
  | none => simpa using h
  | some j => cases j <;> simp [Option.or] <;> exact h

theorem matchArrLast (o : Option Json) :
    (match o with
     | some (.arr items) => items
     | _ => ([] : List Json)) =
    (match o with
     | some (.arr items) => some items
     | _ => none).getD [] := by
  cases o with
  | none => rfl
  | some j => cases j <;> rfl

/-- C4, counterexample to the claim as stated: a response whose `relationships`
field is an EMPTY array and whose `entities` field is populated. The source
selects the empty `relationships` array (`Array.isArray` does not check
non-emptiness) and returns no items, while the claim demands the populated
`entities` items. -/
theorem extractRelationshipItems_cex :
    extractRelationshipItems
        (Json.obj [(strOf "relationships", .arr []),
          (strOf "entities", .arr [.obj [(strOf "entity",
            .str (strOf "urn:li:corpuser:x"))]])]) = [] ∧
    firstPopulatedWrapperItems
        (Json.obj [(strOf "relationships", .arr []),
          (strOf "entities", .arr [.obj [(strOf "entity",
            .str (strOf "urn:li:corpuser:x"))]])]) =
      [.obj [(strOf "entity", .str (strOf "urn:li:corpuser:x"))]] ∧
    extractRelationshipItems
        (Json.obj [(strOf "relationships", .arr []),
          (strOf "entities", .arr [.obj [(strOf "entity",
            .str (strOf "urn:li:corpuser:x"))]])]) ≠
      firstPopulatedWrapperItems
        (Json.obj [(strOf "relationships", .arr []),
          (strOf "entities", .arr [.obj [(strOf "entity",
            .str (strOf "urn:li:corpuser:x"))]])]) := by
  decide

/-- C4 (amended): for every relationships API response value, normalization
selects the items of the first wrapper field that IS a list — even an empty
one — among `relationships`, `entities`, `value`, `elements` in that order, and
yields the empty list when no wrapper field is a list. -/
theorem extractRelationshipItems_spec (response : Json) :
    extractRelationshipItems response = firstListWrapperItems response := by
  unfold extractRelationshipItems firstListWrapperItems wrapperListField
  exact matchArrStep _ _ _ (matchArrStep _ _ _ (matchArrStep _ _ _ (matchArrLast _)))

/-! ## Claim C1: edge deduplication -/

/-- Reference definition from the claim's words: deduplicate by the
`(source, target, label)` triple itself — an edge IS its triple — keeping the
first occurrence. -/
def firstWinsDedup : List RelationshipEdge → List RelationshipEdge → List RelationshipEdge
  | [], _ => []
  | e :: es, seen =>
    if e ∈ seen then firstWinsDedup es seen else e :: firstWinsDedup es (e :: seen)

theorem dedupeEdges_sublist (l : List RelationshipEdge) (seen : List Str) :
    (dedupeEdges l seen).Sublist l := by
  induction l generalizing seen with
  | nil => simp [dedupeEdges]
  | cons e es ih =>
    simp only [dedupeEdges]
    by_cases h : edgeKey e ∈ seen
    · rw [if_pos h]
      exact (ih seen).trans (List.sublist_cons_self e es)
    · rw [if_neg h]
      exact (ih (edgeKey e :: seen)).cons₂ e

theorem dedupeEdges_key_not_seen (l : List RelationshipEdge) (seen : List Str) :
    ∀ e ∈ dedupeEdges l seen, edgeKey e ∉ seen := by
  induction l generalizing seen with
  | nil => simp [dedupeEdges]
  | cons e es ih =>
    simp only [dedupeEdges]
    by_cases h : edgeKey e ∈ seen
    · rw [if_pos h]
      exact ih seen
    · rw [if_neg h]
      intro f hf
      rcases List.mem_cons.mp hf with hfe | hf2
      · rw [hfe]
        exact h
      · intro hc
        exact ih (edgeKey e :: seen) f hf2 (List.mem_cons_of_mem _ hc)

theorem dedupeEdges_pairwise_keys (l : List RelationshipEdge) (seen : List Str) :
    (dedupeEdges l seen).Pairwise (fun a b => edgeKey a ≠ edgeKey b) := by
  induction l generalizing seen with
  | nil => simp [dedupeEdges]
  | cons e es ih =>
    simp only [dedupeEdges]
    by_cases h : edgeKey e ∈ seen
    · rw [if_pos h]
      exact ih seen
    · rw [if_neg h]
      refine List.Pairwise.cons ?_ (ih (edgeKey e :: seen))
      intro b hb hc
      exact dedupeEdges_key_not_seen es (edgeKey e :: seen) b hb (hc ▸ List.mem_cons_self _ _)

theorem dedupeEdges_nodup (l : List RelationshipEdge) (seen : List Str) :
    (dedupeEdges l seen).Nodup :=
  (dedupeEdges_pairwise_keys l seen).imp (fun h hc => h (congrArg edgeKey hc))

theorem dedupeEdges_first_occurrence (l : List RelationshipEdge) (seen : List Str) :
    ∀ e ∈ dedupeEdges l seen,
      ∃ l1 l2, l = l1 ++ e :: l2 ∧ ∀ f ∈ l1, edgeKey f ≠ edgeKey e := by
  induction l generalizing seen with
  | nil => simp [dedupeEdges]
  | cons a as ih =>
    simp only [dedupeEdges]
    by_cases h : edgeKey a ∈ seen
    · rw [if_pos h]
      intro e he
      obtain ⟨l1, l2, hsplit, hkeys⟩ := ih seen e he
      refine ⟨a :: l1, l2, by rw [hsplit, List.cons_append], ?_⟩
      intro f hf
      rcases List.mem_cons.mp hf with hf1 | hf2
      · rw [hf1]
        intro hc
        exact dedupeEdges_key_not_seen as seen e he (hc ▸ h)
      · exact hkeys f hf2
    · rw [if_neg h]
      intro e he
      rcases List.mem_cons.mp he with he1 | he2
      · exact ⟨[], as, by rw [he1, List.nil_append], by simp⟩
      · obtain ⟨l1, l2, hsplit, hkeys⟩ := ih (edgeKey a :: seen) e he2
        refine ⟨a :: l1, l2, by rw [hsplit, List.cons_append], ?_⟩
        intro f hf
        rcases List.mem_cons.mp hf with hf1 | hf2
        · rw [hf1]
          intro hc
          exact dedupeEdges_key_not_seen as (edgeKey a :: seen) e he2
            (hc ▸ List.mem_cons_self _ _)
        · exact hkeys f hf2

theorem dedupeEdges_eq_firstWins (l : List RelationshipEdge) (seenK : List Str)
    (seenE : List RelationshipEdge)
    (hiff : ∀ e ∈ l, (edgeKey e ∈ seenK ↔ e ∈ seenE))
    (hinj : ∀ e1 ∈ l, ∀ e2 ∈ l, edgeKey e1 = edgeKey e2 → e1 = e2) :
    dedupeEdges l seenK = firstWinsDedup l seenE := by
  induction l generalizing seenK seenE with
  | nil => rfl
  | cons e es ih =>
    simp only [dedupeEdges, firstWinsDedup]
    by_cases h : edgeKey e ∈ seenK
    · rw [if_pos h, if_pos ((hiff e (List.mem_cons_self _ _)).mp h)]
      exact ih seenK seenE (fun f hf => hiff f (List.mem_cons_of_mem _ hf))
        (fun f1 hf1 f2 hf2 => hinj f1 (List.mem_cons_of_mem _ hf1) f2
          (List.mem_cons_of_mem _ hf2))
    · rw [if_neg h, if_neg (fun hc => h ((hiff e (List.mem_cons_self _ _)).mpr hc))]
      refine congrArg (e :: ·) (ih (edgeKey e :: seenK) (e :: seenE) ?_ ?_)
      · intro f hf
        constructor
        · intro hk
          rcases List.mem_cons.mp hk with hk1 | hk2
          · exact (hinj f (List.mem_cons_of_mem _ hf) e (List.mem_cons_self _ _) hk1) ▸
              List.mem_cons_self _ _
          · exact List.mem_cons_of_mem _ ((hiff f (List.mem_cons_of_mem _ hf)).mp hk2)
        · intro hm
          rcases List.mem_cons.mp hm with hm1 | hm2
          · rw [hm1]
            exact List.mem_cons_self _ _
          · exact List.mem_cons_of_mem _ ((hiff f (List.mem_cons_of_mem _ hf)).mpr hm2)
      · exact fun f1 hf1 f2 hf2 => hinj f1 (List.mem_cons_of_mem _ hf1) f2
          (List.mem_cons_of_mem _ hf2)

/-- C1 (amended): for every successful navigation action, the published
Neighborhood's edge list is the key-based deduplication of the discovered
edges in discovery order (incoming, outgoing, in-payload references, synthetic
previous edge); it holds at most one edge per ordered `(source, target, label)`
triple (edges ARE their triples, so `Nodup`), is a sublist of the
discovery-order list, and every kept edge is the first discovered edge bearing
its bar-joined string key — hence the first bearing its triple. Deduplication
is by that string key, not by the triple itself, so a later edge whose key
collides with an earlier distinct edge's key is dropped even when its own
triple was never kept; whenever the key map is injective on the discovered
edges — in particular whenever identifiers and labels are bar-free — the list
equals exactly the first-occurrence-wins deduplication by triple. -/
theorem neighborhood_edges_dedup (net : Network) (encode : Str → Str) (base : Str)
    (st : AppState) (centerEntity : DatahubObject) (incoming outgoing : List RelationshipItem)
    (mode : NavigationMode) (breadcrumbIndex : Option Int) :
    ∃ nb : Neighborhood,
      (buildNeighborhoodState net encode base st centerEntity incoming outgoing mode
          breadcrumbIndex).neighborhood = some nb ∧
      nb.edges =
        dedupeEdges (discoveredEdges st centerEntity incoming outgoing mode breadcrumbIndex)
          [] ∧
      nb.edges.Nodup ∧
      nb.edges.Sublist (discoveredEdges st centerEntity incoming outgoing mode
        breadcrumbIndex) ∧
      (∀ e ∈ nb.edges,
        ∃ l1 l2,
          discoveredEdges st centerEntity incoming outgoing mode breadcrumbIndex =
            l1 ++ e :: l2 ∧
          ∀ f ∈ l1, edgeKey f ≠ edgeKey e) ∧
      ((∀ e1 ∈ discoveredEdges st centerEntity incoming outgoing mode breadcrumbIndex,
          ∀ e2 ∈ discoveredEdges st centerEntity incoming outgoing mode breadcrumbIndex,
            edgeKey e1 = edgeKey e2 → e1 = e2) →
        nb.edges =
          firstWinsDedup (discoveredEdges st centerEntity incoming outgoing mode
            breadcrumbIndex) []) := by
  refine ⟨_, rfl, rfl, dedupeEdges_nodup _ _, dedupeEdges_sublist _ _,
    dedupeEdges_first_occurrence _ _, fun hinj => ?_⟩
  exact dedupeEdges_eq_firstWins _ [] [] (by simp) hinj

/-- C1, counterexample to the claim as stated: with center identifier
`urn:li:x|urn:li:x` (bar-containing identifiers are reachable — the entity id
is taken verbatim from the response payload's `urn` field), one incoming
relationship from `urn:li:x` and the same outgoing relationship discovered
twice, the incoming edge and the outgoing edge are distinct triples with equal
bar-joined keys. The outgoing triple is discovered twice, yet NO edge bearing
it is kept — the claim demands that the first of the several discovered edges
sharing that triple be kept. -/
theorem neighborhood_edges_dedup_cex :
    ((buildNeighborhoodState (fun _ => .fail 500 [] []) id [] emptyAppState
        (placeholderEntity (strOf "urn:li:x|urn:li:x"))
        [⟨strOf "urn:li:x", strOf "t"⟩]
        [⟨strOf "urn:li:x", strOf "t"⟩, ⟨strOf "urn:li:x", strOf "t"⟩]
        .connect none).neighborhood.map Neighborhood.edges) =
      some [⟨strOf "urn:li:x", strOf "urn:li:x|urn:li:x", strOf "t"⟩] ∧
    (discoveredEdges emptyAppState (placeholderEntity (strOf "urn:li:x|urn:li:x"))
        [⟨strOf "urn:li:x", strOf "t"⟩]
        [⟨strOf "urn:li:x", strOf "t"⟩, ⟨strOf "urn:li:x", strOf "t"⟩]
        .connect none).count
      ⟨strOf "urn:li:x|urn:li:x", strOf "urn:li:x", strOf "t"⟩ = 2 ∧
    (⟨strOf "urn:li:x|urn:li:x", strOf "urn:li:x", strOf "t"⟩ : RelationshipEdge) ≠
      ⟨strOf "urn:li:x", strOf "urn:li:x|urn:li:x", strOf "t"⟩ := by
  decide

/-- Witness for C1 at a concrete action: one incoming and one duplicated
outgoing relationship. -/
theorem neighborhood_edges_dedup_witness :
    ∃ nb : Neighborhood,
      (buildNeighborhoodState (fun _ => .fail 500 [] []) id []
          { entitiesByUrn := [], neighborhood := none, navStack := [], centerId := none,
            urnInput := [], inputError := [] }
          { id := strOf "urn:li:dataset:a", type := strOf "dataset", name := strOf "a",
            raw := .obj [] }
          [⟨strOf "urn:li:dataJob:j", strOf "Produces"⟩]
          [⟨strOf "urn:li:dataset:b", strOf "DownstreamOf"⟩,
           ⟨strOf "urn:li:dataset:b", strOf "DownstreamOf"⟩]
          .connect none).neighborhood = some nb ∧
      nb.edges =
        dedupeEdges (discoveredEdges
          { entitiesByUrn := [], neighborhood := none, navStack := [], centerId := none,
            urnInput := [], inputError := [] }
          { id := strOf "urn:li:dataset:a", type := strOf "dataset", name := strOf "a",
            raw := .obj [] }
          [⟨strOf "urn:li:dataJob:j", strOf "Produces"⟩]
          [⟨strOf "urn:li:dataset:b", strOf "DownstreamOf"⟩,
           ⟨strOf "urn:li:dataset:b", strOf "DownstreamOf"⟩]
          .connect none) [] ∧
      nb.edges.Nodup ∧
      nb.edges.Sublist (discoveredEdges
        { entitiesByUrn := [], neighborhood := none, navStack := [], centerId := none,
          urnInput := [], inputError := [] }
        { id := strOf "urn:li:dataset:a", type := strOf "dataset", name := strOf "a",
          raw := .obj [] }
        [⟨strOf "urn:li:dataJob:j", strOf "Produces"⟩]
        [⟨strOf "urn:li:dataset:b", strOf "DownstreamOf"⟩,
         ⟨strOf "urn:li:dataset:b", strOf "DownstreamOf"⟩]
        .connect none) ∧
      nb.edges =
        firstWinsDedup (discoveredEdges
          { entitiesByUrn := [], neighborhood := none, navStack := [], centerId := none,
            urnInput := [], inputError := [] }
          { id := strOf "urn:li:dataset:a", type := strOf "dataset", name := strOf "a",
            raw := .obj [] }
          [⟨strOf "urn:li:dataJob:j", strOf "Produces"⟩]
          [⟨strOf "urn:li:dataset:b", strOf "DownstreamOf"⟩,
           ⟨strOf "urn:li:dataset:b", strOf "DownstreamOf"⟩]
          .connect none) [] := by
  obtain ⟨nb, h1, h2, h3, h4, h5, h6⟩ := neighborhood_edges_dedup (fun _ => .fail 500 [] [])
    id []
    { entitiesByUrn := [], neighborhood := none, navStack := [], centerId := none,
      urnInput := [], inputError := [] }
    { id := strOf "urn:li:dataset:a", type := strOf "dataset", name := strOf "a",
      raw := .obj [] }
    [⟨strOf "urn:li:dataJob:j", strOf "Produces"⟩]
    [⟨strOf "urn:li:dataset:b", strOf "DownstreamOf"⟩,
     ⟨strOf "urn:li:dataset:b", strOf "DownstreamOf"⟩]
    .connect none
  exact ⟨nb, h1, h2, h3, h4, h6 (by decide)⟩

/-! ## Claim C6: resolution failure aborts the action with no state mutation -/

theorem fetchEntity_error_attempts {net : Network} {encode : Str → Str} {base urn : Str}
    {e : DatahubApiError} (h : fetchEntity net encode base urn = .error e) :
    e.attemptedEndpoints = some (entityAttempts encode urn) := by
  unfold fetchEntity at h
  cases hl : attemptLoop net base (fun j => parseEntityResponse j urn)
      (entityAttempts encode urn) none with
  | ok v => rw [hl] at h; exact Except.noConfusion h
  | error le =>
    rw [hl] at h
    have he : e = wrapFailure (strOf "Failed to fetch entity from GMS.")
        (entityAttempts encode urn) le := (Except.error.inj h).symm
    rw [he]
    cases le <;> rfl

theorem fetchRelationships_error_attempts {net : Network} {encode : Str → Str}
    {base urn : Str} {direction : Direction} {e : DatahubApiError}
    (h : fetchRelationships net encode base urn direction = .error e) :
    e.attemptedEndpoints = some (relationshipAttempts encode urn direction) := by
  unfold fetchRelationships at h
  cases hl : attemptLoop net base parseRelationships
      (relationshipAttempts encode urn direction) none with
  | ok v => rw [hl] at h; exact Except.noConfusion h
  | error le =>
    rw [hl] at h
    have he : e = wrapFailure (strOf "Failed to fetch relationships from GMS.")
        (relationshipAttempts encode urn direction) le := (Except.error.inj h).symm
    rw [he]
    cases le <;> rfl

/-- C6: when resolving the target entity, or either relationship direction,
fails (all endpoint variants exhausted), the navigation action only sets the
error message — rendered from the single `DatahubApiError`, which carries the
attempted endpoint list of the failing operation — and leaves the entity
cache, navigation stack, published Neighborhood and displayed center exactly
as they were (the record-update equality leaves every other field of the
state untouched). -/
theorem loadNeighborhood_failure_no_mutation (net : Network) (encode : Str → Str)
    (base : Str) (st : AppState) (urn : Str) (mode : NavigationMode)
    (breadcrumbIndex : Option Int) (e : DatahubApiError)
    (htrim : trimStr urn ≠ [])
    (h : fetchEntity net encode base (trimStr urn) = .error e ∨
      ∃ c, fetchEntity net encode base (trimStr urn) = .ok c ∧
        (fetchRelationships net encode base c.id .INCOMING = .error e ∨
          ∃ inc, fetchRelationships net encode base c.id .INCOMING = .ok inc ∧
            fetchRelationships net encode base c.id .OUTGOING = .error e)) :
    loadNeighborhood net encode base st urn mode breadcrumbIndex =
      { st with inputError := renderApiError e } ∧
    (e.attemptedEndpoints = some (entityAttempts encode (trimStr urn)) ∨
      ∃ c, fetchEntity net encode base (trimStr urn) = .ok c ∧
        (e.attemptedEndpoints = some (relationshipAttempts encode c.id .INCOMING) ∨
          e.attemptedEndpoints = some (relationshipAttempts encode c.id .OUTGOING))) := by
  have htrim2 : ¬(trimStr urn).isEmpty = true := by
    simpa [List.isEmpty_iff] using htrim
  rcases h with hfe | ⟨c, hc, hrel⟩
  · constructor
    · simp only [loadNeighborhood]
      rw [if_neg htrim2, hfe]
    · exact Or.inl (fetchEntity_error_attempts hfe)
  · rcases hrel with hin | ⟨inc, hinc, hout⟩
    · constructor
      · simp only [loadNeighborhood]
        rw [if_neg htrim2, hc]
        dsimp only
        rw [hin]
      · exact Or.inr ⟨c, hc, Or.inl (fetchRelationships_error_attempts hin)⟩
    · constructor
      · simp only [loadNeighborhood]
        rw [if_neg htrim2, hc]
        dsimp only
        rw [hinc]
        dsimp only
        rw [hout]
      · exact Or.inr ⟨c, hc, Or.inr (fetchRelationships_error_attempts hout)⟩

/-- Witness for C6: an oracle failing every request leaves a concrete state
unchanged except for the error message. -/
theorem loadNeighborhood_failure_no_mutation_witness :
    trimStr (strOf " urn:li:dataset:a ") ≠ [] ∧
    loadNeighborhood (fun _ => .fail 503 (strOf "down") (strOf "Service Unavailable")) id
        (strOf "/gms")
        { entitiesByUrn := [(strOf "urn:li:dataset:old",
            { id := strOf "urn:li:dataset:old", type := strOf "dataset", name := strOf "old",
              raw := .obj [] })],
          neighborhood := none, navStack := [strOf "urn:li:dataset:old"],
          centerId := some (strOf "urn:li:dataset:old"), urnInput := [], inputError := [] }
        (strOf " urn:li:dataset:a ") .node none =
      { entitiesByUrn := [(strOf "urn:li:dataset:old",
          { id := strOf "urn:li:dataset:old", type := strOf "dataset", name := strOf "old",
            raw := .obj [] })],
        neighborhood := none, navStack := [strOf "urn:li:dataset:old"],
        centerId := some (strOf "urn:li:dataset:old"), urnInput := [],
        inputError := renderApiError
          { message := strOf "Failed to fetch entity from GMS."
            status := some 503
            endpoint := some (strOf "/entitiesV2/" ++ strOf "urn:li:dataset:a")
            attemptedEndpoints := some (entityAttempts id (strOf "urn:li:dataset:a"))
            details := some (strOf "down") } } := by
  refine ⟨by decide, ?_⟩
  exact (loadNeighborhood_failure_no_mutation
    (fun _ => .fail 503 (strOf "down") (strOf "Service Unavailable")) id (strOf "/gms")
    { entitiesByUrn := [(strOf "urn:li:dataset:old",
        { id := strOf "urn:li:dataset:old", type := strOf "dataset", name := strOf "old",
          raw := .obj [] })],
      neighborhood := none, navStack := [strOf "urn:li:dataset:old"],
      centerId := some (strOf "urn:li:dataset:old"), urnInput := [], inputError := [] }
    (strOf " urn:li:dataset:a ") .node none
    { message := strOf "Failed to fetch entity from GMS."
      status := some 503
      endpoint := some (strOf "/entitiesV2/" ++ strOf "urn:li:dataset:a")
      attemptedEndpoints := some (entityAttempts id (strOf "urn:li:dataset:a"))
      details := some (strOf "down") }
    (by decide) (Or.inl rfl)).1

/-! ## Claim C10: failed neighbors become placeholders, the action succeeds -/

theorem recordGet_recordSet_self {α : Type} (m : List (Str × α)) (k : Str) (v : α) :
    recordGet (recordSet m k v) k = some v := by
  induction m with
  | nil => simp [recordSet, recordGet]
  | cons p rest ih =>
    simp only [recordSet]
    by_cases h : p.1 = k
    · rw [if_pos h]
      simp [recordGet, h]
    · rw [if_neg h]
      simp [recordGet, h, ih]

theorem recordGet_recordSet_other {α : Type} (m : List (Str × α)) (k k2 : Str) (v : α)
    (h : k2 ≠ k) : recordGet (recordSet m k v) k2 = recordGet m k2 := by
  induction m with
  | nil =>
    simp only [recordSet, recordGet]
    rw [if_neg (fun hc => h hc.symm)]
  | cons p rest ih =>
    simp only [recordSet]
    by_cases hp : p.1 = k
    · rw [if_pos hp]
      simp only [recordGet]
      have hne : ¬p.1 = k2 := fun hc => h (hc ▸ hp)
      rw [if_neg hne, if_neg hne]
    · rw [if_neg hp]
      simp only [recordGet]
      by_cases hpk : p.1 = k2
      · rw [if_pos hpk, if_pos hpk]
      · rw [if_neg hpk, if_neg hpk]
        exact ih

/-- Label for a map-shaped aspect entry following the CLAIM's unified priority
(reference definition from the claim's words): explicit label field, name
field, ASPECT-NAME field, structural key, positional fallback. -/
def claimedAspectLabelMap (value : Json) (key : Str) (index : Nat) : Str :=
  match truthyStringField value (strOf "label") with
  | some s => s
  | none =>
    match truthyStringField value (strOf "name") with
    | some s => s
    | none =>
      match truthyStringField value (strOf "aspectName") with
      | some s => s
      | none => if key.isEmpty then strOf "aspect_" ++ strOf (toString (index + 1)) else key

/-- The map-shaped grouping as the claim states it (with `aspectName` consulted
before the structural key). -/
def claimedAspectGroupsMap (entries : List (Str × Json)) : List (Str × List Str) :=
  entries.enum.foldl
    (fun groups p =>
      if isJsObject p.2.2 then
        addAspectGroup groups (claimedAspectLabelMap p.2.2 p.2.1 p.1) p.2.2
      else groups)
    []

/-- `extractAspectUrnGroups` as the claim states it: identical except for the
label priority of map-shaped aspects. -/
def claimedAspectUrnGroups (raw : Json) : List (Str × List Str) :=
  match raw with
  | .obj fields =>
    match recordGet fields (strOf "aspects") with
    | none => []
    | some aspects =>
      if jsonFalsy aspects then []
      else
        match aspects with
        | .arr items => extractAspectGroupsArr items
        | .obj entries => claimedAspectGroupsMap entries
        | _ => []
  | _ => []

/-- C5, counterexample to the claim as stated: a map-shaped aspect whose record
carries an `aspectName` but no `label`/`name`. The source labels it by the
structural key `k` (the map branch never consults `aspectName`), while the
claim's priority order demands the aspect-name `A`. -/
theorem extractAspectUrnGroups_cex :
    extractAspectUrnGroups
        (.obj [(strOf "aspects", .obj [(strOf "k",
          .obj [(strOf "aspectName", .str (strOf "A")),
            (strOf "u", .str (strOf "urn:li:tag:t"))])])]) =
      [(strOf "k", [strOf "urn:li:tag:t"])] ∧
    claimedAspectUrnGroups
        (.obj [(strOf "aspects", .obj [(strOf "k",
          .obj [(strOf "aspectName", .str (strOf "A")),
            (strOf "u", .str (strOf "urn:li:tag:t"))])])]) =
      [(strOf "A", [strOf "urn:li:tag:t"])] ∧
    extractAspectUrnGroups
        (.obj [(strOf "aspects", .obj [(strOf "k",
          .obj [(strOf "aspectName", .str (strOf "A")),
            (strOf "u", .str (strOf "urn:li:tag:t"))])])]) ≠
      claimedAspectUrnGroups
        (.obj [(strOf "aspects", .obj [(strOf "k",
          .obj [(strOf "aspectName", .str (strOf "A")),
            (strOf "u", .str (strOf "urn:li:tag:t"))])])]) := by
  decide

/-- The labeled identifier sets contributed by the qualifying aspects of a
shaped aspects value, in order: one pair per truthy-object aspect, labeled by
the given labeling function, carrying its extracted identifiers, with
zero-identifier aspects removed. -/
def aspectPairs {β : Type} (cond : β → Bool) (labelF : β → Str) (valF : β → Json)
    (l : List β) : List (Str × List Str) :=
  ((l.filter cond).map (fun b => (labelF b, extractUrns (valF b) []))).filter
    (fun q => !q.2.isEmpty)

/-- Collect labeled pairs into the result map (`Map.set` overwrite semantics). -/
def groupsOfPairs (pairs : List (Str × List Str)) : List (Str × List Str) :=
  pairs.foldl (fun g q => recordSet g q.1 q.2) []

theorem foldl_aspect_eq_pairs {β : Type} (cond : β → Bool) (labelF : β → Str)
    (valF : β → Json) (l : List β) (g : List (Str × List Str)) :
    l.foldl (fun groups b => if cond b then addAspectGroup groups (labelF b) (valF b)
      else groups) g =
    (aspectPairs cond labelF valF l).foldl (fun g2 q => recordSet g2 q.1 q.2) g := by
  induction l generalizing g with
  | nil => rfl
  | cons b rest ih =>
    simp only [List.foldl_cons]
    unfold aspectPairs
    by_cases hc : cond b
    · rw [if_pos hc, List.filter_cons_of_pos hc, List.map_cons]
      unfold addAspectGroup
      by_cases hu : (extractUrns (valF b) []).isEmpty
      · rw [if_pos hu, List.filter_cons_of_neg (by simp [hu])]
        exact ih g
      · rw [if_neg hu, List.filter_cons_of_pos (by simp [hu]), List.foldl_cons]
        exact ih (recordSet g (labelF b) (extractUrns (valF b) []))
    · rw [if_neg hc, List.filter_cons_of_neg (by simp [hc])]
      exact ih g

theorem recordSet_mem {α : Type} (m : List (Str × α)) (k : Str) (v : α) :
    ∀ q ∈ recordSet m k v, q ∈ m ∨ q = (k, v) := by
  induction m with
  | nil => simp [recordSet]
  | cons p rest ih =>
    simp only [recordSet]
    by_cases hp : p.1 = k
    · rw [if_pos hp]
      intro q hq
      rcases List.mem_cons.mp hq with h1 | h2
      · right
        rw [h1, hp]
      · exact Or.inl (List.mem_cons_of_mem _ h2)
    · rw [if_neg hp]
      intro q hq
      rcases List.mem_cons.mp hq with h1 | h2
      · exact Or.inl (h1 ▸ List.mem_cons_self _ _)
      · rcases ih q h2 with h3 | h3
        · exact Or.inl (List.mem_cons_of_mem _ h3)
        · exact Or.inr h3

theorem foldl_recordSet_values (pairs : List (Str × List Str)) (g : List (Str × List Str))
    (hg : ∀ q ∈ g, q.2 ≠ []) (hp : ∀ q ∈ pairs, q.2 ≠ []) :
    ∀ q ∈ pairs.foldl (fun g2 q => recordSet g2 q.1 q.2) g, q.2 ≠ [] := by
  induction pairs generalizing g with
  | nil => exact hg
  | cons p rest ih =>
    simp only [List.foldl_cons]
    refine ih (recordSet g p.1 p.2) ?_ (fun q hq => hp q (List.mem_cons_of_mem _ hq))
    intro q hq
    rcases recordSet_mem g p.1 p.2 q hq with h1 | h1
    · exact hg q h1
    · rw [h1]
      exact hp p (List.mem_cons_self _ _)

theorem aspectPairs_values {β : Type} (cond : β → Bool) (labelF : β → Str)
    (valF : β → Json) (l : List β) :
    ∀ q ∈ aspectPairs cond labelF valF l, q.2 ≠ [] := by
  intro q hq
  have := (List.mem_filter.mp hq).2
  simp only [Bool.not_eq_eq_eq_not, Bool.not_true] at this
  intro hc
  rw [hc] at this
  simp at this

theorem groupsOfPairs_values {pairs : List (Str × List Str)}
    (h : ∀ q ∈ pairs, q.2 ≠ []) : ∀ q ∈ groupsOfPairs pairs, q.2 ≠ [] :=
  foldl_recordSet_values pairs [] (by simp) h

/-- C5 (amended): for every raw entity whose aspects field is a list of records
or a map of named records, each truthy-object aspect's extracted identifiers
are assigned to a label chosen in priority order — for list-shaped aspects an
explicit (truthy string) `label` field, then `name`, then `aspectName`, then
the positional fallback `aspect_N`; for map-shaped aspects `label`, then
`name`, then the (non-empty) structural key, then `aspect_N`, with `aspectName`
never consulted — and every aspect contributing zero identifiers is omitted
from the resulting map. -/
theorem extractAspectUrnGroups_spec (raw : Json) :
    (∀ q ∈ extractAspectUrnGroups raw, q.2 ≠ []) ∧
    (∀ fields items, raw = .obj fields →
      recordGet fields (strOf "aspects") = some (.arr items) →
      extractAspectUrnGroups raw =
        groupsOfPairs (aspectPairs (fun p => isJsObject p.2)
          (fun p => aspectLabelArr p.2 p.1) (fun p => p.2) items.enum)) ∧
    (∀ fields entries, raw = .obj fields →
      recordGet fields (strOf "aspects") = some (.obj entries) →
      extractAspectUrnGroups raw =
        groupsOfPairs (aspectPairs (fun p => isJsObject p.2.2)
          (fun p => aspectLabelMap p.2.2 p.2.1 p.1) (fun p => p.2.2) entries.enum)) := by
  have harr : ∀ items : List Json, extractAspectGroupsArr items =
      groupsOfPairs (aspectPairs (fun p => isJsObject p.2)
        (fun p => aspectLabelArr p.2 p.1) (fun p => p.2) items.enum) := by
    intro items
    exact foldl_aspect_eq_pairs _ _ _ items.enum []
  have hmap : ∀ entries : List (Str × Json), extractAspectGroupsMap entries =
      groupsOfPairs (aspectPairs (fun p => isJsObject p.2.2)
        (fun p => aspectLabelMap p.2.2 p.2.1 p.1) (fun p => p.2.2) entries.enum) := by
    intro entries
    exact foldl_aspect_eq_pairs _ _ _ entries.enum []
  refine ⟨?_, ?_, ?_⟩
  · intro q hq
    match raw, hq with
    | .obj fields, hq =>
      revert hq
      simp only [extractAspectUrnGroups]
      cases hget : recordGet fields (strOf "aspects") with
      | none => intro hq; exact absurd hq (by simp)
      | some aspects =>
        dsimp only
        by_cases hf : jsonFalsy aspects
        · rw [if_pos hf]
          intro hq
          exact absurd hq (by simp)
        · rw [if_neg hf]
          match aspects with
          | .arr items =>
            dsimp only
            rw [harr items]
            exact fun hq => groupsOfPairs_values (aspectPairs_values _ _ _ _) q hq
          | .obj entries =>
            dsimp only
            rw [hmap entries]
            exact fun hq => groupsOfPairs_values (aspectPairs_values _ _ _ _) q hq
          | .str s => intro hq; exact absurd hq (by simp)
          | .num n => intro hq; exact absurd hq (by simp)
          | .bool b => intro hq; exact absurd hq (by simp)
          | .null => intro hq; exact absurd hq (by simp)
  · intro fields items heq hget
    subst heq
    simp only [extractAspectUrnGroups]
    rw [hget]
    simp only [jsonFalsy, Bool.false_eq_true, if_false]
    exact harr items
  · intro fields entries heq hget
    subst heq
    simp only [extractAspectUrnGroups]
    rw [hget]
    simp only [jsonFalsy, Bool.false_eq_true, if_false]
    exact hmap entries

/-- Witness for C5 (amended) at a concrete list-shaped and map-shaped input. -/
theorem extractAspectUrnGroups_spec_witness :
    extractAspectUrnGroups
        (.obj [(strOf "aspects", .arr [.obj [(strOf "label", .str (strOf "ownership")),
          (strOf "owner", .str (strOf "urn:li:corpuser:jdoe"))]])]) =
      groupsOfPairs (aspectPairs (fun p => isJsObject p.2)
        (fun p => aspectLabelArr p.2 p.1) (fun p => p.2)
        ([Json.obj [(strOf "label", .str (strOf "ownership")),
          (strOf "owner", .str (strOf "urn:li:corpuser:jdoe"))]].enum)) :=
  (extractAspectUrnGroups_spec
      (.obj [(strOf "aspects", .arr [.obj [(strOf "label", .str (strOf "ownership")),
        (strOf "owner", .str (strOf "urn:li:corpuser:jdoe"))]])])).2.1
    [(strOf "aspects", .arr [.obj [(strOf "label", .str (strOf "ownership")),
      (strOf "owner", .str (strOf "urn:li:corpuser:jdoe"))]])]
    [.obj [(strOf "label", .str (strOf "ownership")),
      (strOf "owner", .str (strOf "urn:li:corpuser:jdoe"))]]
    rfl rfl

/-! ## Order and permutation facts about the modeled sort -/

theorem strLtB_irrefl (a : Str) : strLtB a a = false := by
  induction a with
  | nil => rfl
  | cons c cs ih => simp [strLtB, ih]

theorem strLtB_trans {a b c : Str} (h1 : strLtB a b = true) (h2 : strLtB b c = true) :
    strLtB a c = true := by
  induction a generalizing b c with
  | nil =>
    cases b with
    | nil => simp [strLtB] at h1
    | cons y ys =>
      cases c with
      | nil => simp [strLtB] at h2
      | cons z zs => simp [strLtB]
  | cons x xs ih =>
    cases b with
    | nil => simp [strLtB] at h1
    | cons y ys =>
      cases c with
      | nil => simp [strLtB] at h2
      | cons z zs =>
        simp only [strLtB] at h1 h2 ⊢
        by_cases hxy : x < y
        · by_cases hyz : y < z
          · rw [if_pos (lt_trans hxy hyz)]
          · rw [if_neg hyz] at h2
            by_cases hzy : z < y
            · rw [if_pos hzy] at h2
              exact absurd h2 (by simp)
            · have hyz2 : y = z := le_antisymm (le_of_not_lt hzy) (le_of_not_lt hyz)
              rw [if_pos (hyz2 ▸ hxy)]
        · rw [if_neg hxy] at h1
          by_cases hyx : y < x
          · rw [if_pos hyx] at h1
            exact absurd h1 (by simp)
          · have hxy2 : x = y := le_antisymm (le_of_not_lt hyx) (le_of_not_lt hxy)
            subst hxy2
            by_cases hxz : x < z
            · rw [if_pos hxz]
            · rw [if_neg hxz] at h2 ⊢
              by_cases hzx : z < x
              · rw [if_pos hzx] at h2
                exact absurd h2 (by simp)
              · rw [if_neg hzx] at h2 ⊢
                rw [if_neg hxy] at h1
                exact ih h1 h2

theorem strLtB_total (a b : Str) : strLtB a b = true ∨ strLtB b a = true ∨ a = b := by
  induction a generalizing b with
  | nil =>
    cases b with
    | nil => exact Or.inr (Or.inr rfl)
    | cons y ys => exact Or.inl (by simp [strLtB])
  | cons x xs ih =>
    cases b with
    | nil => exact Or.inr (Or.inl (by simp [strLtB]))
    | cons y ys =>
      by_cases hxy : x < y
      · exact Or.inl (by simp [strLtB, hxy])
      · by_cases hyx : y < x
        · exact Or.inr (Or.inl (by simp [strLtB, hyx]))
        · have hxy2 : x = y := le_antisymm (le_of_not_lt hyx) (le_of_not_lt hxy)
          subst hxy2
          rcases ih ys with h | h | h
          · exact Or.inl (by simp [strLtB, h, lt_irrefl])
          · exact Or.inr (Or.inl (by simp [strLtB, h, lt_irrefl]))
          · exact Or.inr (Or.inr (by rw [h]))

theorem strLeB_total (a b : Str) : strLeB a b = true ∨ strLeB b a = true := by
  unfold strLeB
  rcases strLtB_total a b with h | h | h
  · exact Or.inl (by simp [h])
  · exact Or.inr (by simp [h])
  · exact Or.inl (by simp [h])

theorem strLeB_trans {a b c : Str} (h1 : strLeB a b = true) (h2 : strLeB b c = true) :
    strLeB a c = true := by
  unfold strLeB at h1 h2 ⊢
  rcases Bool.or_eq_true_iff.mp h1 with h1a | h1a <;>
    rcases Bool.or_eq_true_iff.mp h2 with h2a | h2a
  · simp [strLtB_trans h1a h2a]
  · have : b = c := by simpa using h2a
    simp [this ▸ h1a]
  · have : a = b := by simpa using h1a
    simp [this ▸ h2a]
  · have hab : a = b := by simpa using h1a
    have hbc : b = c := by simpa using h2a
    simp [hab, hbc]

theorem insertLe_perm {α : Type} (le : α → α → Bool) (x : α) (l : List α) :
    (insertLe le x l).Perm (x :: l) := by
  induction l with
  | nil => simp [insertLe]
  | cons y ys ih =>
    simp only [insertLe]
    by_cases h : le x y
    · rw [if_pos h]
    · rw [if_neg h]
      exact (ih.cons y).trans (List.Perm.swap x y ys)

theorem sortByLe_perm {α : Type} (le : α → α → Bool) (l : List α) :
    (sortByLe le l).Perm l := by
  induction l with
  | nil => simp [sortByLe]
  | cons x xs ih =>
    simp only [sortByLe, List.foldr_cons]
    exact (insertLe_perm le x _).trans (ih.cons x)

theorem mem_insertLe {α : Type} (le : α → α → Bool) (x : α) (l : List α) (z : α) :
    z ∈ insertLe le x l ↔ z = x ∨ z ∈ l := by
  rw [(insertLe_perm le x l).mem_iff]
  simp

theorem insertLe_sorted {α : Type} (le : α → α → Bool)
    (htot : ∀ a b, le a b = true ∨ le b a = true)
    (htrans : ∀ {a b c}, le a b = true → le b c = true → le a c = true)
    (x : α) (l : List α) (hl : l.Pairwise (fun a b => le a b = true)) :
    (insertLe le x l).Pairwise (fun a b => le a b = true) := by
  induction l with
  | nil => simp [insertLe]
  | cons y ys ih =>
    simp only [insertLe]
    rcases List.pairwise_cons.mp hl with ⟨hy, hys⟩
    by_cases h : le x y
    · rw [if_pos h]
      refine List.Pairwise.cons ?_ hl
      intro b hb
      rcases List.mem_cons.mp hb with hb1 | hb2
      · exact hb1 ▸ h
      · exact htrans h (hy b hb2)
    · rw [if_neg h]
      have hyx : le y x = true := by
        rcases htot x y with h1 | h1
        · exact absurd h1 h
        · exact h1
      refine List.Pairwise.cons ?_ (ih hys)
      intro b hb
      rcases (mem_insertLe le x ys b).mp hb with hb1 | hb2
      · exact hb1 ▸ hyx
      · exact hy b hb2

theorem sortByLe_sorted {α : Type} (le : α → α → Bool)
    (htot : ∀ a b, le a b = true ∨ le b a = true)
    (htrans : ∀ {a b c}, le a b = true → le b c = true → le a c = true)
    (l : List α) : (sortByLe le l).Pairwise (fun a b => le a b = true) := by
  induction l with
  | nil => simp [sortByLe]
  | cons x xs ih =>
    simp only [sortByLe, List.foldr_cons]
    exact insertLe_sorted le htot (fun h1 h2 => htrans h1 h2) x _ ih

theorem sortStr_perm (l : List Str) : (sortStr l).Perm l := sortByLe_perm strLeB l

theorem mem_sortStr (l : List Str) (x : Str) : x ∈ sortStr l ↔ x ∈ l :=
  (sortStr_perm l).mem_iff

theorem sortStr_sorted (l : List Str) :
    (sortStr l).Pairwise (fun a b => strLeB a b = true) :=
  sortByLe_sorted strLeB strLeB_total (fun h1 h2 => strLeB_trans h1 h2) l

/-! ## Membership facts about the modeled JS sets and records -/

theorem mem_foldl_setAdd {α : Type} [DecidableEq α] (l : List α) (acc : List α) (x : α) :
    x ∈ l.foldl setAdd acc ↔ x ∈ acc ∨ x ∈ l := by
  induction l generalizing acc with
  | nil => simp
  | cons y ys ih =>
    simp only [List.foldl_cons, ih, List.mem_cons]
    unfold setAdd
    by_cases hy : y ∈ acc
    · rw [if_pos hy]
      constructor
      · rintro (h | h)
        · exact Or.inl h
        · exact Or.inr (Or.inr h)
      · rintro (h | h | h)
        · exact Or.inl h
        · exact Or.inl (h ▸ hy)
        · exact Or.inr h
    · rw [if_neg hy]
      simp only [List.mem_append, List.mem_singleton]
      tauto

theorem mem_dedupKeepFirst {α : Type} [DecidableEq α] (l : List α) (x : α) :
    x ∈ dedupKeepFirst l ↔ x ∈ l := by
  unfold dedupKeepFirst
  rw [mem_foldl_setAdd]
  simp

/-! ## The dependency-grouping fold, characterized -/

theorem recordGet_foldl_groupAppend (labelOf : Str → Str) (xs : List Str)
    (m : List (Str × List Str)) (k : Str) :
    recordGet (xs.foldl (fun groups urn => groupAppend groups (labelOf urn) urn) m) k =
      match recordGet m k with
      | some vs => some (vs ++ xs.filter (fun u => labelOf u = k))
      | none =>
        if xs.any (fun u => labelOf u = k) then
          some (xs.filter (fun u => labelOf u = k))
        else none := by
  induction xs generalizing m with
  | nil => cases h : recordGet m k <;> simp [h]
  | cons u us ih =>
    simp only [List.foldl_cons]
    rw [ih]
    by_cases hk : labelOf u = k
    · have hm2 : recordGet (groupAppend m (labelOf u) u) k =
          some ((recordGet m k).getD [] ++ [u]) := by
        unfold groupAppend
        rw [hk]
        exact recordGet_recordSet_self m k ((recordGet m k).getD [] ++ [u])
      rw [hm2]
      cases hmk : recordGet m k with
      | some vs => simp [hmk, List.filter_cons, hk]
      | none => simp [hmk, List.filter_cons, List.any_cons, hk]
    · have hm2 : recordGet (groupAppend m (labelOf u) u) k = recordGet m k := by
        unfold groupAppend
        exact recordGet_recordSet_other m (labelOf u) k _ (fun hc => hk hc.symm)
      rw [hm2]
      cases hmk : recordGet m k with
      | some vs => simp [hmk, List.filter_cons, hk]
      | none => simp [hmk, List.filter_cons, List.any_cons, hk]

theorem keys_recordSet {α : Type} (m : List (Str × α)) (k : Str) (v : α) :
    (recordSet m k v).map Prod.fst = setAdd (m.map Prod.fst) k := by
  induction m with
  | nil => simp [recordSet, setAdd]
  | cons p rest ih =>
    simp only [recordSet]
    by_cases hp : p.1 = k
    · rw [if_pos hp]
      simp only [List.map_cons]
      have hmem : k ∈ p.1 :: List.map Prod.fst rest := by
        rw [← hp]
        exact List.mem_cons_self _ _
      unfold setAdd
      rw [if_pos hmem]
    · rw [if_neg hp]
      simp only [List.map_cons, ih]
      unfold setAdd
      by_cases hk : k ∈ rest.map Prod.fst
      · rw [if_pos hk, if_pos (List.mem_cons_of_mem _ hk)]
      · rw [if_neg hk, if_neg ?_]
        · simp
        · intro hc
          rcases List.mem_cons.mp hc with h1 | h1
          · exact hp h1.symm
          · exact hk h1

theorem keys_foldl_groupAppend (labelOf : Str → Str) (xs : List Str)
    (m : List (Str × List Str)) :
    (xs.foldl (fun groups urn => groupAppend groups (labelOf urn) urn) m).map Prod.fst =
      (xs.map labelOf).foldl setAdd (m.map Prod.fst) := by
  induction xs generalizing m with
  | nil => rfl
  | cons u us ih =>
    simp only [List.foldl_cons, List.map_cons]
    rw [ih]
    have : (groupAppend m (labelOf u) u).map Prod.fst = setAdd (m.map Prod.fst) (labelOf u) :=
      keys_recordSet m (labelOf u) _
    rw [this]

theorem dependencyGroupsOf_get (cache : List (Str × DatahubObject)) (nb : Neighborhood)
    (k : Str) :
    recordGet (dependencyGroupsOf cache nb) k =
      if (layoutDependencyUrns cache nb).any
          (fun u => dependencyLabel nb.aspectLabelsByUrn u = k) then
        some ((layoutDependencyUrns cache nb).filter
          (fun u => dependencyLabel nb.aspectLabelsByUrn u = k))
      else none := by
  unfold dependencyGroupsOf
  rw [recordGet_foldl_groupAppend (dependencyLabel nb.aspectLabelsByUrn)
    (layoutDependencyUrns cache nb) [] k]
  rfl

theorem dependencyGroupsOf_keys (cache : List (Str × DatahubObject)) (nb : Neighborhood) :
    (dependencyGroupsOf cache nb).map Prod.fst =
      dedupKeepFirst ((layoutDependencyUrns cache nb).map
        (dependencyLabel nb.aspectLabelsByUrn)) := by
  unfold dependencyGroupsOf dedupKeepFirst
  rw [keys_foldl_groupAppend]
  rfl

theorem mem_dependencyGroup_values {cache : List (Str × DatahubObject)} {nb : Neighborhood}
    {k : Str} {u : Str} (h : u ∈ (recordGet (dependencyGroupsOf cache nb) k).getD []) :
    u ∈ layoutDependencyUrns cache nb := by
  rw [dependencyGroupsOf_get] at h
  by_cases ha : (layoutDependencyUrns cache nb).any
      (fun v => dependencyLabel nb.aspectLabelsByUrn v = k)
  · rw [if_pos ha] at h
    simp only [Option.getD_some] at h
    exact (List.mem_filter.mp h).1
  · rw [if_neg ha] at h
    simp at h

/-! ## Claim C8: role assignment in the radial layout -/

/-- Default node used only to state positional lookups. -/
def dummyNode : PositionedNode :=
  { object := none, x := 0, y := 0, role := Role.center }

theorem computeGraph_nodes_eq (piV : ℚ) (cosF sinF : ℚ → ℚ) (svgWidth svgHeight : ℚ)
    (cid : Str) (cache : List (Str × DatahubObject)) (nb : Neighborhood)
    (cobj : DatahubObject) (hcid : cid.isEmpty = false)
    (hcobj : recordGet cache cid = some cobj) :
    (computeGraph piV cosF sinF svgWidth svgHeight (some cid) cache (some nb)).nodes =
      { object := some cobj, x := svgWidth / 2, y := svgHeight / 2, role := Role.center } ::
      (graphNeighborUrns cid cache nb).enum.map
        (fun p => neighborNode piV cosF sinF svgWidth svgHeight cache nb
          (graphNeighborUrns cid cache nb).length p.1 p.2) := by
  unfold computeGraph
  dsimp only
  rw [if_neg (by simp [hcid]), hcobj]

theorem mem_orderedNeighborUrns {cid : Str} {cache : List (Str × DatahubObject)}
    {nb : Neighborhood} {u : Str} (h : u ∈ orderedNeighborUrnsOf cid cache nb) :
    nb.previousUrn = some u ∨ u ∈ nb.parentUrns ∨ u ∈ nb.dependencyUrns := by
  unfold orderedNeighborUrnsOf at h
  rcases List.mem_append.mp h with h1 | h2
  · rcases List.mem_append.mp h1 with hprev | hpar
    · left
      cases hp : nb.previousUrn with
      | none => rw [hp] at hprev; simp at hprev
      | some p =>
        rw [hp] at hprev
        dsimp only at hprev
        by_cases hcond : ¬p.isEmpty ∧ p ≠ cid
        · rw [if_pos hcond] at hprev
          exact congrArg some (List.mem_singleton.mp hprev).symm
        · rw [if_neg hcond] at hprev
          simp at hprev
    · right
      left
      unfold layoutParentUrns at hpar
      rw [mem_sortStr] at hpar
      exact (List.mem_filter.mp (List.mem_filter.mp hpar).1).1
  · right
    right
    unfold aspectOrderedDependenciesOf at h2
    rcases List.mem_flatMap.mp h2 with ⟨g, hg, hu⟩
    unfold groupedDependenciesOf at hg
    rcases List.mem_map.mp hg with ⟨label, _, heq⟩
    rw [← heq] at hu
    simp only at hu
    rw [mem_sortStr] at hu
    have := mem_dependencyGroup_values hu
    unfold layoutDependencyUrns at this
    exact (List.mem_filter.mp (List.mem_filter.mp this).1).1

theorem mem_graphNeighborUrns {cid : Str} {cache : List (Str × DatahubObject)}
    {nb : Neighborhood} {u : Str} (h : u ∈ graphNeighborUrns cid cache nb) :
    nb.previousUrn = some u ∨ u ∈ nb.parentUrns ∨ u ∈ nb.dependencyUrns :=
  mem_orderedNeighborUrns ((mem_dedupKeepFirst _ _).mp h)

/-- C8: every neighbor node the layout produces satisfies the claimed role
rules — a neighbor equal to the Neighborhood's previous identifier gets role
`previous` regardless of set membership; any other neighbor in both the parent
and dependency sets gets `both`; otherwise `parent` or `dependency` according
to the (raw) set it belongs to — and every non-previous neighbor does belong
to one of the two sets. -/
theorem graph_role_assignment (piV : ℚ) (cosF sinF : ℚ → ℚ) (svgWidth svgHeight : ℚ)
    (cid : Str) (cache : List (Str × DatahubObject)) (nb : Neighborhood)
    (cobj : DatahubObject) (hcid : cid.isEmpty = false)
    (hcobj : recordGet cache cid = some cobj) (k : Nat)
    (hk : k < (graphNeighborUrns cid cache nb).length) :
    ((nb.previousUrn = some ((graphNeighborUrns cid cache nb).get ⟨k, hk⟩) →
      ((computeGraph piV cosF sinF svgWidth svgHeight (some cid) cache
        (some nb)).nodes.getD (k + 1) dummyNode).role = Role.previous) ∧
    (nb.previousUrn ≠ some ((graphNeighborUrns cid cache nb).get ⟨k, hk⟩) →
      (graphNeighborUrns cid cache nb).get ⟨k, hk⟩ ∈ nb.parentUrns →
      (graphNeighborUrns cid cache nb).get ⟨k, hk⟩ ∈ nb.dependencyUrns →
      ((computeGraph piV cosF sinF svgWidth svgHeight (some cid) cache
        (some nb)).nodes.getD (k + 1) dummyNode).role = Role.both) ∧
    (nb.previousUrn ≠ some ((graphNeighborUrns cid cache nb).get ⟨k, hk⟩) →
      (graphNeighborUrns cid cache nb).get ⟨k, hk⟩ ∈ nb.parentUrns →
      (graphNeighborUrns cid cache nb).get ⟨k, hk⟩ ∉ nb.dependencyUrns →
      ((computeGraph piV cosF sinF svgWidth svgHeight (some cid) cache
        (some nb)).nodes.getD (k + 1) dummyNode).role = Role.parent) ∧
    (nb.previousUrn ≠ some ((graphNeighborUrns cid cache nb).get ⟨k, hk⟩) →
      (graphNeighborUrns cid cache nb).get ⟨k, hk⟩ ∉ nb.parentUrns →
      (graphNeighborUrns cid cache nb).get ⟨k, hk⟩ ∈ nb.dependencyUrns →
      ((computeGraph piV cosF sinF svgWidth svgHeight (some cid) cache
        (some nb)).nodes.getD (k + 1) dummyNode).role = Role.dependency) ∧
    (nb.previousUrn ≠ some ((graphNeighborUrns cid cache nb).get ⟨k, hk⟩) →
      (graphNeighborUrns cid cache nb).get ⟨k, hk⟩ ∈ nb.parentUrns ∨
        (graphNeighborUrns cid cache nb).get ⟨k, hk⟩ ∈ nb.dependencyUrns)) := by
  have hnode : ((computeGraph piV cosF sinF svgWidth svgHeight (some cid) cache
      (some nb)).nodes.getD (k + 1) dummyNode).role =
      roleFor nb ((graphNeighborUrns cid cache nb).get ⟨k, hk⟩) := by
    rw [computeGraph_nodes_eq piV cosF sinF svgWidth svgHeight cid cache nb cobj hcid hcobj]
    rw [List.getD_cons_succ, List.getD_eq_getElem?_getD, List.getElem?_map,
      List.getElem?_enum, List.getElem?_eq_getElem hk]
    simp [neighborNode, List.get_eq_getElem]
  rw [hnode]
  set u := (graphNeighborUrns cid cache nb).get ⟨k, hk⟩ with hu
  refine ⟨fun hprev => ?_, fun hnp hp hd => ?_, fun hnp hp hd => ?_, fun hnp hp hd => ?_,
    fun hnp => ?_⟩
  · unfold roleFor
    rw [if_pos hprev]
  · unfold roleFor
    rw [if_neg hnp, if_pos ⟨hp, hd⟩]
  · unfold roleFor
    rw [if_neg hnp, if_neg (fun hc => hd hc.2), if_pos hp]
  · unfold roleFor
    rw [if_neg hnp, if_neg (fun hc => hp hc.1), if_neg hp]
  · have hmem : u ∈ graphNeighborUrns cid cache nb := by
      rw [hu]
      exact List.mem_iff_get.mpr ⟨⟨k, hk⟩, rfl⟩
    rcases mem_graphNeighborUrns hmem with h1 | h1 | h1
    · exact absurd h1 hnp
    · exact Or.inl h1
    · exact Or.inr h1

/-- Witness for C8 at a concrete neighborhood with one neighbor in both sets. -/
theorem graph_role_assignment_witness :
    (recordGet [(strOf "c", placeholderEntity (strOf "c")),
        (strOf "n", placeholderEntity (strOf "n"))] (strOf "c") =
      some (placeholderEntity (strOf "c"))) ∧
    ((computeGraph 0 (fun _ => 1) (fun _ => 0) 980 660 (some (strOf "c"))
        [(strOf "c", placeholderEntity (strOf "c")),
         (strOf "n", placeholderEntity (strOf "n"))]
        (some { centerUrn := strOf "c", previousUrn := none,
                parentUrns := [strOf "n"], dependencyUrns := [strOf "n"],
                aspectLabelsByUrn := [], edges := [] })).nodes.getD 1 dummyNode).role =
      Role.both := by
  have h := (graph_role_assignment 0 (fun _ => 1) (fun _ => 0) 980 660 (strOf "c")
    [(strOf "c", placeholderEntity (strOf "c")),
     (strOf "n", placeholderEntity (strOf "n"))]
    { centerUrn := strOf "c", previousUrn := none,
      parentUrns := [strOf "n"], dependencyUrns := [strOf "n"],
      aspectLabelsByUrn := [], edges := [] }
    (placeholderEntity (strOf "c")) (by decide) (by decide) 0 (by decide)).2.1
  exact ⟨by decide, h (by decide) (by decide) (by decide)⟩

/-! ## Claim C9: the radial ordering and placement -/

/-- Reference definition from the claim's words: dependency groups ordered by
lexicographically sorted aspect label (the first aspect label of each cached,
non-previous dependency, `Uncategorized` when absent), each group's members
lexicographically sorted, flattened. -/
def specDependencyOrder (cache : List (Str × DatahubObject)) (nb : Neighborhood) :
    List Str :=
  (sortStr (dedupKeepFirst ((layoutDependencyUrns cache nb).map
      (dependencyLabel nb.aspectLabelsByUrn)))).flatMap
    (fun label => sortStr ((layoutDependencyUrns cache nb).filter
      (fun u => dependencyLabel nb.aspectLabelsByUrn u = label)))

theorem aspectOrderedDependencies_spec (cache : List (Str × DatahubObject))
    (nb : Neighborhood) :
    aspectOrderedDependenciesOf cache nb = specDependencyOrder cache nb := by
  unfold aspectOrderedDependenciesOf groupedDependenciesOf specDependencyOrder
  rw [dependencyGroupsOf_keys]
  rw [List.flatMap_map]
  rw [List.flatMap_def, List.flatMap_def]
  refine congrArg List.flatten (List.map_congr_left ?_)
  intro label hlabel
  simp only
  rw [mem_sortStr, mem_dedupKeepFirst] at hlabel
  rcases List.mem_map.mp hlabel with ⟨u, hu, hlu⟩
  have hany : (layoutDependencyUrns cache nb).any
      (fun v => dependencyLabel nb.aspectLabelsByUrn v = label) = true := by
    rw [List.any_eq_true]
    exact ⟨u, hu, by simp [hlu]⟩
  rw [dependencyGroupsOf_get, if_pos hany]
  rfl

/-- C9, counterexample to the claim as stated: a Neighborhood whose `previous`
identifier is absent from the entity cache. The claim demands that every
identifier absent from the cache be skipped (never plotted), but the layout
still places the previous identifier first — as a node with no resolved
entity — because the source's ordering never checks the cache for `previous`. -/
theorem graph_layout_cex :
    recordGet [(strOf "c", placeholderEntity (strOf "c"))] (strOf "p") = none ∧
    (computeGraph 0 (fun _ => 1) (fun _ => 0) 980 660 (some (strOf "c"))
        [(strOf "c", placeholderEntity (strOf "c"))]
        (some { centerUrn := strOf "c", previousUrn := some (strOf "p"),
                parentUrns := [], dependencyUrns := [], aspectLabelsByUrn := [],
                edges := [] })).nodes.length = 2 ∧
    ((computeGraph 0 (fun _ => 1) (fun _ => 0) 980 660 (some (strOf "c"))
        [(strOf "c", placeholderEntity (strOf "c"))]
        (some { centerUrn := strOf "c", previousUrn := some (strOf "p"),
                parentUrns := [], dependencyUrns := [], aspectLabelsByUrn := [],
                edges := [] })).nodes.getD 1 dummyNode).role = Role.previous ∧
    ((computeGraph 0 (fun _ => 1) (fun _ => 0) 980 660 (some (strOf "c"))
        [(strOf "c", placeholderEntity (strOf "c"))]
        (some { centerUrn := strOf "c", previousUrn := some (strOf "p"),
                parentUrns := [], dependencyUrns := [], aspectLabelsByUrn := [],
                edges := [] })).nodes.getD 1 dummyNode).object = none := by
  decide

/-- C9 (amended): with the center resolvable, the layout places the center node
at the canvas center; the neighbor ordering is: the previous identifier first
whenever present and distinct from the center — even when absent from the
entity cache — then the cached parents distinct from the previous identifier
sorted lexicographically, then the dependency groups ordered by sorted aspect
label with members sorted, flattened; the concatenation deduplicated keeping
first occurrences (parents and dependencies absent from the entity cache are
skipped); and neighbor `k` of `n` is placed on the circle of radius
`0.34 * min(width, height)` at angle `2πk/n − π/2`. -/
theorem graph_layout_spec (piV : ℚ) (cosF sinF : ℚ → ℚ) (svgWidth svgHeight : ℚ)
    (cid : Str) (cache : List (Str × DatahubObject)) (nb : Neighborhood)
    (cobj : DatahubObject) (hcid : cid.isEmpty = false)
    (hcobj : recordGet cache cid = some cobj) :
    (computeGraph piV cosF sinF svgWidth svgHeight (some cid) cache
        (some nb)).nodes.length = (graphNeighborUrns cid cache nb).length + 1 ∧
    (computeGraph piV cosF sinF svgWidth svgHeight (some cid) cache
        (some nb)).nodes.getD 0 dummyNode =
      { object := some cobj, x := svgWidth / 2, y := svgHeight / 2,
        role := Role.center } ∧
    graphNeighborUrns cid cache nb =
      dedupKeepFirst
        ((match nb.previousUrn with
          | some p => if ¬p.isEmpty ∧ p ≠ cid then [p] else []
          | none => []) ++
         sortStr ((nb.parentUrns.filter (fun u => (recordGet cache u).isSome)).filter
           (fun u => ¬nb.previousUrn = some u)) ++
         specDependencyOrder cache nb) ∧
    (layoutParentUrns cache nb).Pairwise (fun a b => strLeB a b = true) ∧
    (layoutParentUrns cache nb).Perm
      ((nb.parentUrns.filter (fun u => (recordGet cache u).isSome)).filter
        (fun u => ¬nb.previousUrn = some u)) ∧
    (∀ k, (hk : k < (graphNeighborUrns cid cache nb).length) →
      (computeGraph piV cosF sinF svgWidth svgHeight (some cid) cache
          (some nb)).nodes.getD (k + 1) dummyNode =
        { object := recordGet cache ((graphNeighborUrns cid cache nb).get ⟨k, hk⟩)
          x := svgWidth / 2 + min svgWidth svgHeight * (34 / 100) *
            cosF (2 * piV * k / ((graphNeighborUrns cid cache nb).length : ℚ) - piV / 2)
          y := svgHeight / 2 + min svgWidth svgHeight * (34 / 100) *
            sinF (2 * piV * k / ((graphNeighborUrns cid cache nb).length : ℚ) - piV / 2)
          role := roleFor nb ((graphNeighborUrns cid cache nb).get ⟨k, hk⟩) }) := by
  have hnodes := computeGraph_nodes_eq piV cosF sinF svgWidth svgHeight cid cache nb cobj
    hcid hcobj
  refine ⟨?_, ?_, ?_, ?_, ?_, ?_⟩
  · rw [hnodes]
    simp only [List.length_cons, List.length_map, List.enum_length]
  · rw [hnodes]
    rfl
  · unfold graphNeighborUrns orderedNeighborUrnsOf
    rw [aspectOrderedDependencies_spec]
    rfl
  · exact sortStr_sorted _
  · exact sortStr_perm _
  · intro k hk
    rw [hnodes]
    rw [List.getD_cons_succ, List.getD_eq_getElem?_getD, List.getElem?_map,
      List.getElem?_enum, List.getElem?_eq_getElem hk]
    simp only [Option.map_some', Option.getD_some]
    unfold neighborNode
    have h1n : (1 : ℚ) ≤ ((graphNeighborUrns cid cache nb).length : ℚ) := by
      exact_mod_cast (by omega : 1 ≤ (graphNeighborUrns cid cache nb).length)
    have hangle : piV * 2 * (k : ℚ) /
          (((graphNeighborUrns cid cache nb).length : ℚ) ⊔ 1) - piV / 2 =
        2 * piV * (k : ℚ) / ((graphNeighborUrns cid cache nb).length : ℚ) - piV / 2 := by
      rw [max_eq_left h1n]
      ring
    rw [hangle]
    simp [List.get_eq_getElem]

/-- Witness for C9 (amended) at a concrete neighborhood: one parent, one
labeled dependency, previous distinct from both. -/
theorem graph_layout_spec_witness :
    (recordGet [(strOf "c", placeholderEntity (strOf "c")),
        (strOf "a", placeholderEntity (strOf "a")),
        (strOf "b", placeholderEntity (strOf "b"))] (strOf "c") =
      some (placeholderEntity (strOf "c"))) ∧
    graphNeighborUrns (strOf "c")
        [(strOf "c", placeholderEntity (strOf "c")),
         (strOf "a", placeholderEntity (strOf "a")),
         (strOf "b", placeholderEntity (strOf "b"))]
        { centerUrn := strOf "c", previousUrn := some (strOf "p"),
          parentUrns := [strOf "b"], dependencyUrns := [strOf "a"],
          aspectLabelsByUrn := [(strOf "a", [strOf "ownership"])], edges := [] } =
      dedupKeepFirst
        ((match (some (strOf "p") : Option Str) with
          | some p => if ¬p.isEmpty ∧ p ≠ strOf "c" then [p] else []
          | none => []) ++
         sortStr ((([strOf "b"] : List Str).filter
           (fun u => (recordGet [(strOf "c", placeholderEntity (strOf "c")),
             (strOf "a", placeholderEntity (strOf "a")),
             (strOf "b", placeholderEntity (strOf "b"))] u).isSome)).filter
           (fun u => ¬(some (strOf "p") : Option Str) = some u)) ++
         specDependencyOrder
           [(strOf "c", placeholderEntity (strOf "c")),
            (strOf "a", placeholderEntity (strOf "a")),
            (strOf "b", placeholderEntity (strOf "b"))]
           { centerUrn := strOf "c", previousUrn := some (strOf "p"),
             parentUrns := [strOf "b"], dependencyUrns := [strOf "a"],
             aspectLabelsByUrn := [(strOf "a", [strOf "ownership"])], edges := [] }) :=
  ⟨by decide,
    (graph_layout_spec 0 (fun _ => 1) (fun _ => 0) 980 660 (strOf "c")
      [(strOf "c", placeholderEntity (strOf "c")),
       (strOf "a", placeholderEntity (strOf "a")),
       (strOf "b", placeholderEntity (strOf "b"))]
      { centerUrn := strOf "c", previousUrn := some (strOf "p"),
        parentUrns := [strOf "b"], dependencyUrns := [strOf "a"],
        aspectLabelsByUrn := [(strOf "a", [strOf "ownership"])], edges := [] }
      (placeholderEntity (strOf "c")) (by decide) (by decide)).2.2.1⟩

end DatahubBrowser
